import Mathlib

/-!
# FlashCRC: boot-time flash integrity gate

A shallow embedding of `FlashCRC.c` (the HECI message transport
`mei_wait_for_me_ready` / `mei_reset` / `MeiSendMsg` and the entry routine
`FlashCRCEntry`) together with the properties established about it.

Conventions of the embedding:

* machine words are natural numbers, reduced modulo `2^32` (or `2^16`) where
  the C code stores them in a `UINT32` (`UINT16`);
* the bit-field structures `MeiCsr`, `MeiHeader`, `MkhiHeader` are records of
  their fields, with `ofWord` / `toWord` giving the little-endian bit-field
  layout the compiler uses (first declared field in the least significant
  bits);
* hardware is an oracle: the `n`-th read of a memory-mapped register returns a
  value chosen by the environment;
* every externally visible action is appended to a chronological trace.
-/

namespace FlashCRC

/-! ## Constants of `FlashCRC.c` -/

def MEI_H_CB_WW : Nat := 0x00

def MEI_H_CSR : Nat := 0x04

def MEI_ME_CB_RW : Nat := 0x08

def MEI_ME_CSR_HA : Nat := 0x0c

def BIOS_SIZE : Nat := 0x800000

def FLASH_DESCRIPTOR_BASE : Nat := 0x0

def FLASH_DESCRIPTOR_SIZE : Nat := 0x1000

def GBE_REGION_BASE : Nat := 0x1000

def GBE_REGION_SIZE : Nat := 0x2000

def ME_REGION_BASE : Nat := 0x3000

def ME_REGION_SIZE : Nat := 0x57D000

def BIOS_REGION_BASE : Nat := 0x580000

def BIOS_REGION_SIZE : Nat := 0x280000

def NVRAM_REGION_BASE : Nat := 0x580000

def NVRAM_REGION_SIZE : Nat := 0x40000

def GBE_REGION_SKIP_BASE : Nat := 0x1000

def GBE_REGION_SKIP_SIZE : Nat := 0x2000

def ME_REGION_SKIP_BASE : Nat := 0x33c0

def ME_REGION_SKIP_SIZE : Nat := 0xe2c40

def NVRAM_REGION_SKIP_BASE : Nat := 0x580000

def NVRAM_REGION_SKIP_SIZE : Nat := 0x40000

def CRC32_BASE : Nat := 0x2ffc

def CRC32_SIZE : Nat := 0x4

def WRITE_PROTECT_EN : Nat := 0x80000000

def READ_PROTECT_EN : Nat := 0x8000

def SPI_CONTROLLER_OFFSET : Nat := 0x3800

/-- Number of values of a `UINT32`. -/
def UINT32_MOD : Nat := 4294967296

/-- An `EFI_STATUS` value. -/
abbrev EFI_STATUS := Nat

/-- The status `EFI_SUCCESS` of the UEFI headers. -/
def EFI_SUCCESS : EFI_STATUS := 0

/-! ## Bit-field structures -/

/-- The `struct MeiCsr` bit-field: host control/status register. -/
structure MeiCsr where
  interrupt_enable : Nat
  interrupt_status : Nat
  interrupt_generate : Nat
  ready : Nat
  reset : Nat
  reserved : Nat
  buffer_read_ptr : Nat
  buffer_write_ptr : Nat
  buffer_depth : Nat
  deriving DecidableEq

/-- Reading a 32-bit word through a `struct MeiCsr *`. -/
def MeiCsr.ofWord (w : Nat) : MeiCsr where
  interrupt_enable := w % 2
  interrupt_status := w / 2 % 2
  interrupt_generate := w / 4 % 2
  ready := w / 8 % 2
  reset := w / 16 % 2
  reserved := w / 32 % 8
  buffer_read_ptr := w / 256 % 256
  buffer_write_ptr := w / 65536 % 256
  buffer_depth := w / 16777216 % 256

/-- The 32-bit word stored by a `struct MeiCsr`. -/
def MeiCsr.toWord (c : MeiCsr) : Nat :=
  c.interrupt_enable % 2 + 2 * (c.interrupt_status % 2) + 4 * (c.interrupt_generate % 2)
    + 8 * (c.ready % 2) + 16 * (c.reset % 2) + 32 * (c.reserved % 8)
    + 256 * (c.buffer_read_ptr % 256) + 65536 * (c.buffer_write_ptr % 256)
    + 16777216 * (c.buffer_depth % 256)

/-- The `struct MeiHeader` bit-field: transport header of a message. -/
structure MeiHeader where
  client_address : Fin 256
  host_address : Fin 256
  length : Fin 512
  reserved : Fin 64
  is_complete : Fin 2
  deriving DecidableEq

/-- The 32-bit word stored by a `struct MeiHeader`. -/
def MeiHeader.toWord (h : MeiHeader) : Nat :=
  h.client_address.val + 256 * h.host_address.val + 65536 * h.length.val
    + 33554432 * h.reserved.val + 2147483648 * h.is_complete.val

/-- The `struct MkhiHeader` bit-field: management header of a message. -/
structure MkhiHeader where
  group_id : Fin 256
  command : Fin 128
  is_response : Fin 2
  reserved : Fin 256
  result : Fin 256
  deriving DecidableEq

/-- The 32-bit word stored by a `struct MkhiHeader`. -/
def MkhiHeader.toWord (h : MkhiHeader) : Nat :=
  h.group_id.val + 256 * h.command.val + 32768 * h.is_response.val
    + 65536 * h.reserved.val + 16777216 * h.result.val

/-- A C pointer to an object: the address held by the pointer variable and the
object stored at that address. -/
structure Ptr (α : Type) where
  addr : Nat
  val : α

/-! ## Trace of externally visible actions -/

/-- Destination of the data phase of an SPI cycle. -/
inductive BufTarget where
  /-- The local variable `RefCrc32`. -/
  | refCrc : BufTarget
  /-- The element `Buffer[off]` of the image buffer. -/
  | image (off : Nat) : BufTarget
  deriving DecidableEq

/-- Externally visible actions of the program, in the order performed. HECI
register accesses are recorded by register offset inside the HECI register
block, SPI-controller accesses by their address; the two register blocks belong
to different devices. -/
inductive Event where
  | locateHandleBuffer : Event
  | handleProtocol (i : Nat) (Status : EFI_STATUS) : Event
  | spiExecute (OpcodeIndex PrefixOpcodeIndex : Nat) (DataCycle Atomic ShiftOut : Bool)
      (Address DataByteCount : Nat) (Buffer : BufTarget) (SpiRegionType : Nat)
      (Status : EFI_STATUS) : Event
  | outputString : Event
  | allocateRuntimeZeroPool (size : Nat) : Event
  | calculateCrc32 (size : Nat) (crc : Nat) : Event
  | freePool : Event
  | pciRead32 (value : Nat) : Event
  | heciRead (Reg value : Nat) : Event
  | heciWrite (Reg value : Nat) : Event
  | mmioWrite32 (Address value : Nat) : Event
  | mmioRead16 (Address value : Nat) : Event
  | mmioWrite16 (Address value : Nat) : Event
  | printBad (CalcCrc32 : Nat) : Event
  | printGood (CalcCrc32 : Nat) : Event
  | cli : Event
  deriving DecidableEq

/-! ## The HECI link: `mei_wait_for_me_ready`, `mei_reset`, `MeiSendMsg` -/

/-- The HECI register block as seen by the host: `mmio Reg n` is the value the
`n`-th register read of the run returns when it reads register `Reg`; `pos`
counts the reads performed so far. -/
structure Hw where
  mmio : Nat → Nat → Nat
  pos : Nat
  trace : List Event

/-- The function `HeciRead(Reg, &Data)`: returns the word read and the new hardware state. -/
def HeciRead (Reg : Nat) (hw : Hw) : Nat × Hw :=
  let v := hw.mmio Reg hw.pos % UINT32_MOD
  (v, { hw with pos := hw.pos + 1, trace := hw.trace ++ [Event.heciRead Reg v] })

/-- The function `HeciWrite(Reg, &Data)` where `*Data` is `value`. -/
def HeciWrite (Reg : Nat) (value : Nat) (hw : Hw) : Hw :=
  { hw with trace := hw.trace ++ [Event.heciWrite Reg (value % UINT32_MOD)] }

/-- The loop `while (try--) { HeciRead(MEI_H_CSR, &me); if (me.ready) return EFI_SUCCESS; }`
followed by `return 1`, for a given value of `try`. -/
def mei_wait_loop : Nat → Hw → EFI_STATUS × Hw
  | 0, hw => (1, hw)
  | try_ + 1, hw =>
    let r := HeciRead MEI_H_CSR hw
    if (MeiCsr.ofWord r.1).ready ≠ 0 then (EFI_SUCCESS, r.2)
    else mei_wait_loop try_ r.2

/-- The function `mei_wait_for_me_ready`. -/
def mei_wait_for_me_ready (hw : Hw) : EFI_STATUS × Hw :=
  mei_wait_loop 1000000 hw

/-- The function `mei_reset`. -/
def mei_reset (hw : Hw) : Hw :=
  let w1 := mei_wait_for_me_ready hw
  if w1.1 ≠ EFI_SUCCESS then w1.2
  else
    let r1 := HeciRead MEI_H_CSR w1.2
    let host := MeiCsr.ofWord r1.1
    let host := { host with reset := 1 }
    let host := { host with interrupt_generate := 1 }
    let hw2 := HeciWrite MEI_H_CSR host.toWord r1.2
    let w2 := mei_wait_for_me_ready hw2
    if w2.1 ≠ EFI_SUCCESS then w2.2
    else
      let r2 := HeciRead MEI_H_CSR w2.2
      let host := MeiCsr.ofWord r2.1
      let host := { host with interrupt_generate := 1 }
      let host := { host with ready := 1 }
      let host := { host with reset := 0 }
      HeciWrite MEI_H_CSR host.toWord r2.2

/-- The C comparison `(Host.buffer_depth - Host.buffer_write_ptr) < nData`: the
two bit-fields are promoted to `int`, the difference is converted to `UINT32`
for the comparison with the `UINT32` `nData`. -/
def capacityShort (Host : MeiCsr) (nData : Nat) : Bool :=
  decide (Int.toNat (((Host.buffer_depth : Int) - (Host.buffer_write_ptr : Int))
    % (4294967296 : Int)) < nData)

/-- The loop `for (n = 0; n < nData; n++) HeciWrite(MEI_H_CB_WW, &data[n]);`,
started at index `n` with `count` iterations left. -/
def writeData (data : Nat → Nat) : Nat → Nat → Hw → Hw
  | 0, _, hw => hw
  | count + 1, n, hw => writeData data count (n + 1) (HeciWrite MEI_H_CB_WW (data n) hw)

/-- The value of `nData` after the first part of `MeiSendMsg`, before the
`if (!nData)` test: the number of payload dwords of a message of `length` bytes. -/
def payloadDwords (length : Nat) : Nat :=
  if length &&& 3 ≠ 0 then (length >>> 2) + 1 else length >>> 2

/-- The function `MeiSendMsg(Mei, Mkhi, ReqData)`. The two header writes pass
`&Mei` and `&Mkhi`, the addresses of the pointer parameters, to `HeciWrite`, which
dereferences them as `UINT32 *`: the word written is the low 32 bits of the
pointer value. `ReqData` is read as an array of `UINT32`. -/
def MeiSendMsg (Mei : Ptr MeiHeader) (Mkhi : Ptr MkhiHeader) (ReqData : Nat → Nat)
    (hw : Hw) : EFI_STATUS × Hw :=
  let nData := payloadDwords Mei.val.length.val
  if nData = 0 then (1, hw)
  else
    let nData := nData + 1
    let r := HeciRead MEI_H_CSR hw
    let r := if capacityShort (MeiCsr.ofWord r.1) nData then HeciRead MEI_H_CSR (mei_reset r.2)
      else r
    if capacityShort (MeiCsr.ofWord r.1) nData then (1, r.2)
    else
      let hw1 := HeciWrite MEI_H_CB_WW Mei.addr r.2
      let nData := nData - 1
      let hw2 := HeciWrite MEI_H_CB_WW Mkhi.addr hw1
      let nData := nData - 1
      let hw3 := writeData ReqData nData 0 hw2
      let r2 := HeciRead MEI_H_CSR hw3
      let Host := { MeiCsr.ofWord r2.1 with interrupt_generate := 1 }
      let hw4 := HeciWrite MEI_H_CSR Host.toWord r2.2
      mei_wait_for_me_ready hw4

/-- The words written to the outbound data register `MEI_H_CB_WW`, in order. -/
def cbWrites : List Event → List Nat
  | [] => []
  | Event.heciWrite Reg v :: es => if Reg = MEI_H_CB_WW then v :: cbWrites es else cbWrites es
  | _ :: es => cbWrites es

/-- Number of dwords `MeiSendMsg` needs for a message of `length` bytes: one
transport header word plus `ceil(length / 4)`. -/
def wordsNeeded (length : Nat) : Nat := 1 + (length + 3) / 4

/-! ## The entry routine `FlashCRCEntry` -/

/-- A byte. -/
abbrev UINT8 := Fin 256

/-- An instance of the SPI protocol of `Spi.h`, as an oracle. `Execute k Address
DataByteCount` is the result of the `k`-th `Execute` call of the run when it is a
read of `DataByteCount` bytes at `Address`: the status returned and, for each
offset `j < DataByteCount`, the byte stored at `Buffer[j]` (`none` when the call
leaves that byte of the caller's buffer untouched). -/
structure EFI_SPI_PROTOCOL where
  Execute : Nat → Nat → Nat → EFI_STATUS × (Nat → Option UINT8)

/-- Everything `FlashCRCEntry` obtains from outside. -/
structure Env where
  /-- The macro `EFI_ERROR` of the UEFI headers. -/
  EFI_ERROR : EFI_STATUS → Bool
  /-- Status returned by `gBS->LocateHandleBuffer`. -/
  LocateStatus : EFI_STATUS
  /-- For each handle of `HandleBuffer`, the status `gBS->HandleProtocol` returns
  and the interface it stores in `Spi` (`none`: `Spi` is left as it was). -/
  Handles : List (EFI_STATUS × Option EFI_SPI_PROTOCOL)
  /-- Indeterminate initial value of the local `Spi`. -/
  SpiInit : EFI_SPI_PROTOCOL
  /-- Indeterminate initial value of the local `RefCrc32`. -/
  RefCrc32Init : Nat
  /-- The boot service `gBS->CalculateCrc32` over a byte sequence. -/
  CalculateCrc32 : List UINT8 → Nat
  /-- Value `PciRead32` returns for the HECI base address register. -/
  HeciBar : Nat
  /-- Register reads of the HECI block (see `Hw.mmio`). -/
  heci : Nat → Nat → Nat
  /-- Value `PciRead32` returns for the `PCH_LPC_RCBA` register. -/
  Rcba : Nat
  /-- Value `MmioRead16 (SpiControllerAddr + 0x4)` returns. -/
  Hsfs : Nat
  /-- Address of the local `Mei`. -/
  MeiAddr : Nat
  /-- Address of the local `Mkhi`. -/
  MkhiAddr : Nat

/-- The locals of `FlashCRCEntry` that change during the flash reads, with the
number of `Execute` calls made and the trace so far. -/
structure Locals where
  Status : EFI_STATUS
  RefCrc32 : Nat
  Spi : EFI_SPI_PROTOCOL
  Buffer : Nat → UINT8
  calls : Nat
  trace : List Event

/-- The call `Spi->Execute(Spi, 1, 0, TRUE, TRUE, FALSE, 0x2ffc, sizeof (RefCrc32),
(UINT8 *) &RefCrc32, 4)` with its assignment to `Status`; `RefCrc32` has been
zeroed just before, its four bytes are little-endian. -/
def readRefCrc (s : Locals) : Locals :=
  let r := s.Spi.Execute s.calls 0x2ffc 4
  let byte : Nat → Nat := fun j => match r.2 j with
    | some b => b.val
    | none => 0
  { s with
    Status := r.1
    RefCrc32 := byte 0 + 256 * byte 1 + 65536 * byte 2 + 16777216 * byte 3
    calls := s.calls + 1
    trace := s.trace ++ [Event.spiExecute 1 0 true true false 0x2ffc 4 BufTarget.refCrc 4 r.1] }

/-- The loop `for (i = 0; i < HandleCount; i++)` over the handles left. -/
def handleLoop (env : Env) : List (EFI_STATUS × Option EFI_SPI_PROTOCOL) → Nat → Locals → Locals
  | [], _, s => s
  | (st, p) :: hs, i, s =>
    let s1 : Locals := { s with
      Status := st
      Spi := match p with
        | some q => q
        | none => s.Spi
      trace := s.trace ++ [Event.handleProtocol i st] }
    let s2 := if !env.EFI_ERROR s1.Status then readRefCrc { s1 with RefCrc32 := 0 } else s1
    handleLoop env hs (i + 1) s2

/-- The statements of `FlashCRCEntry` up to the end of the handle enumeration. -/
def enumerate (env : Env) : Locals :=
  let s0 : Locals :=
    { Status := env.LocateStatus
      RefCrc32 := env.RefCrc32Init % UINT32_MOD
      Spi := env.SpiInit
      Buffer := fun _ => 0
      calls := 0
      trace := [Event.locateHandleBuffer] }
  if !env.EFI_ERROR s0.Status then handleLoop env env.Handles 0 s0 else s0

/-- One chunk read of the image: `Status = Spi->Execute(Spi, 1, 0, TRUE, TRUE,
FALSE, (UINTN) i, count, (UINT8 *) &Buffer[i], 4)`. -/
def readChunk (count : Nat) (i : Nat) (s : Locals) : Locals :=
  let r := s.Spi.Execute s.calls i count
  { s with
    Status := r.1
    Buffer := fun off =>
      if i ≤ off ∧ off < i + count then
        match r.2 (off - i) with
        | some b => b
        | none => s.Buffer off
      else s.Buffer off
    calls := s.calls + 1
    trace := s.trace ++
      [Event.spiExecute 1 0 true true false i count (BufTarget.image i) 4 r.1] }

/-- A loop `for (i = start; i < stop; i += step)` whose body reads `count` bytes
at `i`, from the current value of `i`. -/
def readLoop (step count : Nat) (hstep : 0 < step) (stop : Nat) (i : Nat) (s : Locals) : Locals :=
  if i < stop then readLoop step count hstep stop (i + step) (readChunk count i s) else s
termination_by stop - i
decreasing_by omega

/-- The four read loops of `FlashCRCEntry`. -/
def populate (s : Locals) : Locals :=
  let s := readLoop 256 256 (by decide) GBE_REGION_SKIP_BASE 0 s
  let s := readLoop 64 64 (by decide) ME_REGION_SKIP_BASE
    (GBE_REGION_SKIP_BASE + GBE_REGION_SKIP_SIZE) s
  let s := readLoop 256 256 (by decide) NVRAM_REGION_SKIP_BASE
    (ME_REGION_SKIP_BASE + ME_REGION_SKIP_SIZE) s
  readLoop 256 256 (by decide) BIOS_SIZE (NVRAM_REGION_SKIP_BASE + NVRAM_REGION_SKIP_SIZE) s

/-- The initialiser of the local `Mkhi`. -/
def Mkhi_init : MkhiHeader :=
  { group_id := 3, command := 3, is_response := 0, reserved := 0, result := 0 }

/-- The initialiser of the local `Mei`; `sizeof(Mkhi) + sizeof(UINT32)` is 8. -/
def Mei_init : MeiHeader :=
  { is_complete := 1, client_address := 0x7, host_address := 0x0, length := 4 + 4, reserved := 0 }

/-- Value written to the protected-range register at offset `0x74`. -/
def protectLow : Nat :=
  WRITE_PROTECT_EN ||| (((NVRAM_REGION_BASE - 1) >>> 12) <<< 16)

/-- Value written to the protected-range register at offset `0x78`. -/
def protectHigh : Nat :=
  WRITE_PROTECT_EN ||| ((NVRAM_REGION_BASE + NVRAM_REGION_SIZE) >>> 12) ||| 0x7ff0000

/-- The local `SpiControllerAddr`, a `UINT32`. -/
def SpiControllerAddr (env : Env) : Nat :=
  (env.Rcba % UINT32_MOD + SPI_CONTROLLER_OFFSET + (UINT32_MOD - 1)) % UINT32_MOD

/-- The address `SpiControllerAddr + off` as the `UINT32` sum the code computes. -/
def spiReg (env : Env) (off : Nat) : Nat :=
  (SpiControllerAddr env + off) % UINT32_MOD

/-- The three register programming statements after `MeiSendMsg`. -/
def protectEvents (env : Env) : List Event :=
  [ Event.mmioWrite32 (spiReg env 0x74) protectLow,
    Event.mmioWrite32 (spiReg env 0x78) protectHigh,
    Event.mmioRead16 (spiReg env 0x4) (env.Hsfs % 65536),
    Event.mmioWrite16 (spiReg env 0x4) ((env.Hsfs % 65536 ||| READ_PROTECT_EN) % 65536) ]

/-- How a run of `FlashCRCEntry` ends. -/
inductive Outcome where
  /-- The routine returns a status to the boot sequence. -/
  | returned (Status : EFI_STATUS) : Outcome
  /-- The routine stays in `while(1){}` with interrupts masked. -/
  | halted : Outcome
  deriving DecidableEq

/-- The final `if (RefCrc32 != CalcCrc32)` of `FlashCRCEntry`. -/
def gate (RefCrc32 CalcCrc32 : Nat) : List Event × Outcome :=
  if RefCrc32 ≠ CalcCrc32 then ([Event.printBad CalcCrc32, Event.cli], Outcome.halted)
  else ([Event.printGood CalcCrc32], Outcome.returned EFI_SUCCESS)

/-- A run of `FlashCRCEntry`: how it ends, what it did, and the values of its
locals `RefCrc32`, `CalcCrc32`, `Status` and of the image buffer when the
checksum is computed. -/
structure Run where
  outcome : Outcome
  trace : List Event
  RefCrc32 : Nat
  CalcCrc32 : Nat
  Status : EFI_STATUS
  Buffer : Nat → UINT8

/-- The state in which `FlashCRCEntry` leaves the fourth read loop. -/
def populated (env : Env) : Locals :=
  let s1 := enumerate env
  populate { s1 with
    Buffer := fun _ => 0
    trace := s1.trace ++
      [Event.outputString, Event.outputString, Event.allocateRuntimeZeroPool BIOS_SIZE] }

/-- The local `CalcCrc32` after `gBS->CalculateCrc32 (Buffer, BIOS_SIZE, &CalcCrc32)`. -/
def computedCrc (env : Env) : Nat :=
  env.CalculateCrc32 ((List.range BIOS_SIZE).map (populated env).Buffer) % UINT32_MOD

/-- The call `MeiSendMsg(&Mei, &Mkhi, &Data)` of `FlashCRCEntry`, with `Data = 6`
the only word behind `ReqData`. -/
def notification (env : Env) (trace : List Event) : EFI_STATUS × Hw :=
  MeiSendMsg ⟨env.MeiAddr, Mei_init⟩ ⟨env.MkhiAddr, Mkhi_init⟩ (fun _ => 6)
    { mmio := env.heci, pos := 0, trace := trace }

/-- The entry routine `FlashCRCEntry`. -/
def FlashCRCEntry (env : Env) : Run :=
  let s := populated env
  let CalcCrc32 := computedCrc env
  let t1 := s.trace ++ [Event.calculateCrc32 BIOS_SIZE CalcCrc32, Event.freePool, Event.freePool]
  let t2 := t1 ++ [Event.pciRead32 (env.HeciBar % UINT32_MOD)]
  let m := notification env t2
  let t3 := m.2.trace ++ [Event.pciRead32 (env.Rcba % UINT32_MOD)]
  let t4 := t3 ++ protectEvents env
  let g := gate s.RefCrc32 CalcCrc32
  { outcome := g.2
    trace := t4 ++ g.1
    RefCrc32 := s.RefCrc32
    CalcCrc32 := CalcCrc32
    Status := s.Status
    Buffer := s.Buffer }

/-! ## Notions used to state the properties -/

/-- Accesses to the HECI register block. -/
def isHeci : Event → Bool
  | Event.heciRead _ _ => true
  | Event.heciWrite _ _ => true
  | _ => false

/-- The state `hw2` is reached from `hw1` without writing the outbound data
register: same oracle, reads only advance, trace extended by HECI accesses that
are not `MEI_H_CB_WW` writes. -/
def Quiet (hw1 hw2 : Hw) : Prop :=
  hw2.mmio = hw1.mmio ∧ hw1.pos ≤ hw2.pos ∧
    ∃ l, hw2.trace = hw1.trace ++ l ∧ cbWrites l = [] ∧ ∀ e ∈ l, isHeci e = true

/-- The ready bit of the value returned by the `k`-th register read. -/
def readyAt (hw : Hw) (k : Nat) : Nat :=
  (MeiCsr.ofWord (hw.mmio MEI_H_CSR k % UINT32_MOD)).ready

/-- The end of `MeiSendMsg`: set `interrupt_generate` in the host CSR and wait
for the ready bit. -/
def notifyAndWait (hw : Hw) : EFI_STATUS × Hw :=
  mei_wait_for_me_ready
    (HeciWrite MEI_H_CSR
      ({ MeiCsr.ofWord (HeciRead MEI_H_CSR hw).1 with interrupt_generate := 1 }).toWord
      (HeciRead MEI_H_CSR hw).2)

/-- The part of `MeiSendMsg` after the two capacity checks, with `nData` the
total number of dwords: header writes, payload loop, interrupt, final wait. -/
def sendBody (Mei : Ptr MeiHeader) (Mkhi : Ptr MkhiHeader) (ReqData : Nat → Nat)
    (nData : Nat) (hw : Hw) : EFI_STATUS × Hw :=
  notifyAndWait (writeData ReqData (nData - 1 - 1) 0
    (HeciWrite MEI_H_CB_WW Mkhi.addr (HeciWrite MEI_H_CB_WW Mei.addr hw)))

/-- The CSR word and hardware state `MeiSendMsg` holds when it reaches its second
capacity check, for a message of `nData` dwords. -/
def secondCheck (nData : Nat) (hw : Hw) : Nat × Hw :=
  if capacityShort (MeiCsr.ofWord (HeciRead MEI_H_CSR hw).1) nData
  then HeciRead MEI_H_CSR (mei_reset (HeciRead MEI_H_CSR hw).2)
  else HeciRead MEI_H_CSR hw

/-- The payload words `data[0..k-1]` as stored in 32 bits. -/
def payloadWords (ReqData : Nat → Nat) (k : Nat) : List Nat :=
  (List.range k).map (fun j => ReqData j % UINT32_MOD)

/-- The CSR value `MeiSendMsg` reads for its first capacity check. -/
def firstCsr (hw : Hw) : MeiCsr :=
  MeiCsr.ofWord (HeciRead MEI_H_CSR hw).1

/-- The CSR word and the hardware state after the first CSR read, the call of
`mei_reset` and the second CSR read of `MeiSendMsg`. -/
def rereadAfterReset (hw : Hw) : Nat × Hw :=
  HeciRead MEI_H_CSR (mei_reset (HeciRead MEI_H_CSR hw).2)

/-! ## Concrete inputs -/

/-- A CSR stream: the first read has `buffer_depth = 64`, `buffer_write_ptr = 60`,
every later read has `buffer_depth = 64`, `buffer_write_ptr = 0`; `ready = 1`. -/
def csrShortThenEmpty : Nat → Nat → Nat :=
  fun _ n => if n = 0 then 0x403C0008 else 0x40000008

/-- A CSR stream that never shows the ready bit. -/
def csrNeverReady : Nat → Nat → Nat :=
  fun _ _ => 0x40000000

/-- A CSR stream with `buffer_depth = 4`, `buffer_write_ptr = 8`, `ready = 1`. -/
def csrPointerPastDepth : Nat → Nat → Nat :=
  fun _ _ => 0x04080008

/-- A CSR stream with `buffer_depth = 60`, `buffer_write_ptr = 64`, `ready = 1`. -/
def csrSixtyFourOfSixty : Nat → Nat → Nat :=
  fun _ _ => 0x3C400008

/-- A CSR stream with `buffer_depth = 64`, `buffer_write_ptr = 0`, `ready = 1`. -/
def csrEmptyReady : Nat → Nat → Nat :=
  fun _ _ => 0x40000008

/-- A transport header announcing 28 bytes: 8 dwords with the header itself. -/
def Mei28 : MeiHeader :=
  { is_complete := 1, client_address := 0x7, host_address := 0x0, length := 28, reserved := 0 }

/-- Performs `n` successive chunk reads of `count` bytes, `step` apart, starting at `i`. -/
def readN (step count : Nat) : Nat → Nat → Locals → Locals
  | 0, _, s => s
  | n + 1, i, s => readN step count n (i + step) (readChunk count i s)

/-- The event recorded by the `j`-th chunk read of a loop started at `i` in
state `s`. -/
def chunkEvent (step count i : Nat) (s : Locals) (j : Nat) : Event :=
  Event.spiExecute 1 0 true true false (i + step * j) count (BufTarget.image (i + step * j)) 4
    (s.Spi.Execute (s.calls + j) (i + step * j) count).1

/-- A transport that delivers the bytes of `flash` on every read. -/
def returnsFlash (Spi : EFI_SPI_PROTOCOL) (flash : Nat → UINT8) : Prop :=
  ∀ k Address DataByteCount j, j < DataByteCount →
    (Spi.Execute k Address DataByteCount).2 j = some (flash (Address + j))

/-- One read of the image as issued to the transport: flash address, byte count,
offset in the image buffer where the data goes, status returned. -/
structure ChunkRead where
  Address : Nat
  DataByteCount : Nat
  BufferOffset : Nat
  Status : EFI_STATUS
  deriving DecidableEq

/-- The reads of a trace whose destination is the image buffer, in order. -/
def imageReads : List Event → List ChunkRead
  | [] => []
  | Event.spiExecute _ _ _ _ _ a n (BufTarget.image off) _ st :: es =>
    ⟨a, n, off, st⟩ :: imageReads es
  | _ :: es => imageReads es

/-- Reads whose destination is the image buffer. -/
def isImageRead : Event → Bool
  | Event.spiExecute _ _ _ _ _ _ _ (BufTarget.image _) _ _ => true
  | _ => false

/-- Accesses to the registers of the SPI controller. -/
def isSpiCtl : Event → Bool
  | Event.mmioWrite32 _ _ => true
  | Event.mmioRead16 _ _ => true
  | Event.mmioWrite16 _ _ => true
  | _ => false

/-- Values written by `MmioWrite32` to `Address`, in order. -/
def writes32To (Address : Nat) : List Event → List Nat
  | [] => []
  | Event.mmioWrite32 a v :: es =>
    if a = Address then v :: writes32To Address es else writes32To Address es
  | _ :: es => writes32To Address es

/-- Values written by `MmioWrite16` to `Address`, in order. -/
def writes16To (Address : Nat) : List Event → List Nat
  | [] => []
  | Event.mmioWrite16 a v :: es =>
    if a = Address then v :: writes16To Address es else writes16To Address es
  | _ :: es => writes16To Address es

/-- The locals of `FlashCRCEntry` when the first read loop starts. -/
def beforeReads (env : Env) : Locals :=
  { enumerate env with
    Buffer := fun _ => 0
    trace := (enumerate env).trace ++
      [Event.outputString, Event.outputString, Event.allocateRuntimeZeroPool BIOS_SIZE] }

/-- The locals after the first, second and third read loop. -/
def afterLoop1 (env : Env) : Locals := readN 256 256 16 0 (beforeReads env)

def afterLoop2 (env : Env) : Locals := readN 64 64 15 0x3000 (afterLoop1 env)

def afterLoop3 (env : Env) : Locals := readN 256 256 18848 0xE6000 (afterLoop2 env)

/-- The `j`-th chunk read of a loop started at `i` in state `s`. -/
def chunkOf (step count i : Nat) (s : Locals) (j : Nat) : ChunkRead :=
  ⟨i + step * j, count, i + step * j, (s.Spi.Execute (s.calls + j) (i + step * j) count).1⟩

/-- The chunk reads of the four loops of a run, in order. -/
def allChunks (env : Env) : List ChunkRead :=
  (List.range 16).map (chunkOf 256 256 0 (beforeReads env)) ++
  ((List.range 15).map (chunkOf 64 64 0x3000 (afterLoop1 env)) ++
  ((List.range 18848).map (chunkOf 256 256 0xE6000 (afterLoop2 env)) ++
  (List.range 9216).map (chunkOf 256 256 0x5C0000 (afterLoop3 env))))

/-- Addresses left out of the image reads: `[0x1000, 0x3000)`, `[0x33c0, 0xE6000)`
and `[0x580000, 0x5C0000)`. -/
def excluded (a : Nat) : Bool :=
  decide ((0x1000 ≤ a ∧ a < 0x3000) ∨ (0x33c0 ≤ a ∧ a < 0xE6000) ∨ (0x580000 ≤ a ∧ a < 0x5C0000))

/-- The trace of `hw2` extends the trace of `hw1` by HECI accesses only. -/
def HeciExt (hw1 hw2 : Hw) : Prop :=
  ∃ l, hw2.trace = hw1.trace ++ l ∧ ∀ e ∈ l, isHeci e = true

/-- A transport that reads `flash` and returns the status `status Address`. -/
def spiOfFlash (flash : Nat → UINT8) (status : Nat → EFI_STATUS) : EFI_SPI_PROTOCOL :=
  ⟨fun _ Address _ => (status Address, fun j => some (flash (Address + j)))⟩

/-- A transport on which every cycle fails and delivers nothing. -/
def spiDead : EFI_SPI_PROTOCOL :=
  ⟨fun _ _ _ => (0x8000000000000007, fun _ => none)⟩

/-- An environment with one handle carrying the protocol instance `Spi`, the
checksum service `crc` and the HECI register stream `heci`. -/
def envOf (Spi : EFI_SPI_PROTOCOL) (crc : List UINT8 → Nat) (heci : Nat → Nat → Nat) : Env :=
  { EFI_ERROR := fun st => decide (0x8000000000000000 ≤ st)
    LocateStatus := EFI_SUCCESS
    Handles := [(EFI_SUCCESS, some Spi)]
    SpiInit := spiDead
    RefCrc32Init := 0
    CalculateCrc32 := crc
    HeciBar := 0xFED10004
    heci := heci
    Rcba := 0xFED1C001
    Hsfs := 0x0008
    MeiAddr := 0x7F000FE0
    MkhiAddr := 0x7F000FE4 }

/-- A checksum service that is sensitive to every byte: the sum of the bytes. -/
def byteSum (l : List UINT8) : Nat :=
  (l.map Fin.val).sum

/-- A flash whose bytes are all zero. -/
def flashZero : Nat → UINT8 :=
  fun _ => 0

/-- A flash that differs from `flashZero` exactly on `[0x1000, 0x3000)`. -/
def flashGbeOnes : Nat → UINT8 :=
  fun a => if 0x1000 ≤ a ∧ a < 0x3000 then 1 else 0

/-- An environment with a healthy transport and a controller link that is ready
and has an empty circular buffer of depth 64. -/
def envHealthy : Env :=
  envOf (spiOfFlash flashZero (fun _ => EFI_SUCCESS)) byteSum csrEmptyReady

/-- A transport whose read at address 0 fails with `EFI_DEVICE_ERROR` and whose
other reads succeed. -/
def spiFailFirst : EFI_SPI_PROTOCOL :=
  spiOfFlash flashZero (fun a => if a = 0 then 0x8000000000000007 else EFI_SUCCESS)

/-- An environment whose only transport is `spiFailFirst`. -/
def envFailFirst : Env :=
  envOf spiFailFirst byteSum csrEmptyReady

/-- A flash holding the little-endian bytes of `r` at `0x2ffc .. 0x2fff` and zero
elsewhere. -/
def flashWithRef (r : Nat) : Nat → UINT8 :=
  fun a =>
    if a = 0x2ffc then Fin.ofNat r
    else if a = 0x2ffd then Fin.ofNat (r / 256)
    else if a = 0x2ffe then Fin.ofNat (r / 65536)
    else if a = 0x2fff then Fin.ofNat (r / 16777216)
    else 0

/-- An environment whose flash holds the reference checksum `r` and whose
checksum service computes `c`. -/
def envWithChecksums (r c : Nat) (heci : Nat → Nat → Nat) : Env :=
  envOf (spiOfFlash (flashWithRef r) (fun _ => EFI_SUCCESS)) (fun _ => c) heci

/-- Modelled from the spec: the write-protect-enable flag of a protected-range
register value, bit 31 (`WRITE_PROTECT_EN`). The register layout is not part of
the sources. -/
def prWriteProtect (v : Nat) : Nat :=
  v / 2147483648 % 2

/-- Modelled from the spec: the base page field of a protected-range register
value, bits 0-12, the 4 KiB page number of the first protected address. -/
def prBase (v : Nat) : Nat :=
  v % 8192

/-- Modelled from the spec: the limit page field of a protected-range register
value, bits 16-28, the 4 KiB page number of the last protected page. -/
def prLimit (v : Nat) : Nat :=
  v / 65536 % 8192

/-- Modelled from the spec: the addresses a protected-range register value
covers, from the first byte of the base page to the last byte of the limit
page. -/
def prCovers (v a : Nat) : Prop :=
  prBase v * 4096 ≤ a ∧ a < (prLimit v + 1) * 4096

/-! ## The HECI link: facts -/

theorem cbWrites_append (a b : List Event) : cbWrites (a ++ b) = cbWrites a ++ cbWrites b := by
  induction a with
  | nil => rfl
  | cons e es ih =>
    cases e <;> simp [cbWrites, ih]
    split <;> simp

theorem Quiet.refl (hw : Hw) : Quiet hw hw :=
  ⟨rfl, le_rfl, [], by simp, rfl, by simp⟩

theorem Quiet.andThen {a b c : Hw} (h1 : Quiet a b) (h2 : Quiet b c) : Quiet a c := by
  obtain ⟨m1, p1, l1, t1, w1, k1⟩ := h1
  obtain ⟨m2, p2, l2, t2, w2, k2⟩ := h2
  refine ⟨m2.trans m1, le_trans p1 p2, l1 ++ l2, ?_, ?_, ?_⟩
  · rw [t2, t1, List.append_assoc]
  · rw [cbWrites_append, w1, w2]; rfl
  · intro e he
    rcases List.mem_append.1 he with h | h
    · exact k1 e h
    · exact k2 e h

theorem Quiet.cbWrites_eq {a b : Hw} (h : Quiet a b) : cbWrites b.trace = cbWrites a.trace := by
  obtain ⟨_, _, l, t, w, _⟩ := h
  rw [t, cbWrites_append, w, List.append_nil]

theorem Quiet.trace_extends {a b : Hw} (h : Quiet a b) : a.trace <+: b.trace := by
  obtain ⟨_, _, l, t, _⟩ := h
  exact ⟨l, t.symm⟩

theorem HeciRead_quiet (Reg : Nat) (hw : Hw) : Quiet hw (HeciRead Reg hw).2 :=
  ⟨rfl, Nat.le_succ _, [Event.heciRead Reg (hw.mmio Reg hw.pos % UINT32_MOD)], rfl, rfl,
    by simp [isHeci]⟩

theorem HeciWrite_csr_quiet (v : Nat) (hw : Hw) : Quiet hw (HeciWrite MEI_H_CSR v hw) :=
  ⟨rfl, le_rfl, [Event.heciWrite MEI_H_CSR (v % UINT32_MOD)], rfl,
    by simp [cbWrites, MEI_H_CSR, MEI_H_CB_WW], by simp [isHeci]⟩

theorem HeciRead_pos (Reg : Nat) (hw : Hw) : (HeciRead Reg hw).2.pos = hw.pos + 1 := rfl

theorem HeciRead_fst (Reg : Nat) (hw : Hw) :
    (HeciRead Reg hw).1 = hw.mmio Reg hw.pos % UINT32_MOD := rfl

theorem mei_wait_loop_quiet (n : Nat) (hw : Hw) : Quiet hw (mei_wait_loop n hw).2 := by
  induction n generalizing hw with
  | zero => exact Quiet.refl hw
  | succ n ih =>
    unfold mei_wait_loop
    simp only
    split
    · exact HeciRead_quiet _ hw
    · exact (HeciRead_quiet _ hw).andThen (ih _)

theorem mei_wait_loop_pos_le (n : Nat) (hw : Hw) : (mei_wait_loop n hw).2.pos ≤ hw.pos + n := by
  induction n generalizing hw with
  | zero => exact le_rfl
  | succ n ih =>
    unfold mei_wait_loop
    simp only
    split
    · rw [HeciRead_pos]; omega
    · have := ih (HeciRead MEI_H_CSR hw).2
      rw [HeciRead_pos] at this; omega

theorem mei_wait_loop_status (n : Nat) (hw : Hw) :
    (mei_wait_loop n hw).1 = EFI_SUCCESS ∨ (mei_wait_loop n hw).1 = 1 := by
  induction n generalizing hw with
  | zero => right; rfl
  | succ n ih =>
    unfold mei_wait_loop
    simp only
    split
    · left; rfl
    · exact ih _

theorem readyAt_quiet {a b : Hw} (h : Quiet a b) (k : Nat) : readyAt b k = readyAt a k := by
  unfold readyAt; rw [h.1]

theorem readyAt_le_one (hw : Hw) (k : Nat) : readyAt hw k = 0 ∨ readyAt hw k = 1 := by
  unfold readyAt MeiCsr.ofWord
  simp only
  omega

theorem mei_wait_loop_success_iff (n : Nat) (hw : Hw) :
    (mei_wait_loop n hw).1 = EFI_SUCCESS ↔ ∃ i, i < n ∧ readyAt hw (hw.pos + i) = 1 := by
  induction n generalizing hw with
  | zero =>
    simp [mei_wait_loop, EFI_SUCCESS]
  | succ n ih =>
    unfold mei_wait_loop
    simp only
    have hr : (MeiCsr.ofWord (HeciRead MEI_H_CSR hw).1).ready = readyAt hw hw.pos := rfl
    rw [hr]
    rcases readyAt_le_one hw hw.pos with h0 | h1
    · rw [if_neg (by rw [h0]; decide), ih]
      constructor
      · rintro ⟨i, hi, hr⟩
        refine ⟨i + 1, by omega, ?_⟩
        rw [readyAt_quiet (HeciRead_quiet _ hw), HeciRead_pos] at hr
        rw [← hr]; congr 1; omega
      · rintro ⟨i, hi, hr⟩
        cases i with
        | zero => rw [Nat.add_zero, h0] at hr; exact absurd hr (by decide)
        | succ j =>
          refine ⟨j, by omega, ?_⟩
          rw [readyAt_quiet (HeciRead_quiet _ hw), HeciRead_pos]
          rw [← hr]; congr 1; omega
    · rw [if_pos (by rw [h1]; decide)]
      exact ⟨fun _ => ⟨0, by omega, h1⟩, fun _ => rfl⟩

theorem mei_reset_quiet (hw : Hw) : Quiet hw (mei_reset hw) := by
  unfold mei_reset
  simp only
  have q1 : Quiet hw (mei_wait_for_me_ready hw).2 := mei_wait_loop_quiet 1000000 hw
  split
  · exact q1
  · split
    · exact q1.andThen ((HeciRead_quiet MEI_H_CSR _).andThen
        ((HeciWrite_csr_quiet _ _).andThen (mei_wait_loop_quiet 1000000 _)))
    · exact q1.andThen ((HeciRead_quiet MEI_H_CSR _).andThen
        ((HeciWrite_csr_quiet _ _).andThen ((mei_wait_loop_quiet 1000000 _).andThen
          ((HeciRead_quiet MEI_H_CSR _).andThen (HeciWrite_csr_quiet _ _)))))

theorem payloadDwords_eq (L : Nat) : payloadDwords L = (L + 3) / 4 := by
  unfold payloadDwords
  have h1 : L &&& 3 = L % 4 := Nat.and_pow_two_sub_one_eq_mod L 2
  have h2 : L >>> 2 = L / 4 := Nat.shiftRight_eq_div_pow L 2
  rw [h1, h2]
  split <;> omega

theorem ofWord_fields_lt (w : Nat) :
    (MeiCsr.ofWord w).buffer_depth < 256 ∧ (MeiCsr.ofWord w).buffer_write_ptr < 256 := by
  unfold MeiCsr.ofWord
  simp only
  omega

theorem capacityShort_iff (c : MeiCsr) (n : Nat) (hd : c.buffer_depth < 256)
    (hw : c.buffer_write_ptr < 256) (hn : n ≤ 4294967040) :
    capacityShort c n = true ↔
      c.buffer_write_ptr ≤ c.buffer_depth ∧ c.buffer_depth - c.buffer_write_ptr < n := by
  unfold capacityShort
  rw [decide_eq_true_iff]
  omega

theorem writeData_spec (data : Nat → Nat) (count n : Nat) (hw : Hw) :
    (writeData data count n hw).mmio = hw.mmio ∧ (writeData data count n hw).pos = hw.pos ∧
    (writeData data count n hw).trace = hw.trace ++
      (List.range count).map (fun j => Event.heciWrite MEI_H_CB_WW (data (n + j) % UINT32_MOD)) := by
  induction count generalizing n hw with
  | zero => simp [writeData]
  | succ c ih =>
    unfold writeData
    obtain ⟨h1, h2, h3⟩ := ih (n + 1) (HeciWrite MEI_H_CB_WW (data n) hw)
    refine ⟨h1, h2, ?_⟩
    rw [h3, List.range_succ_eq_map]
    simp [HeciWrite, Nat.add_assoc, Nat.add_comm 1, Function.comp_def]

theorem cbWrites_map_data (f : Nat → Nat) (l : List Nat) :
    cbWrites (l.map (fun j => Event.heciWrite MEI_H_CB_WW (f j))) = l.map f := by
  induction l with
  | nil => rfl
  | cons a l ih => simp [cbWrites, ih]

theorem notifyAndWait_quiet (hw : Hw) : Quiet hw (notifyAndWait hw).2 :=
  (HeciRead_quiet MEI_H_CSR hw).andThen
    ((HeciWrite_csr_quiet _ _).andThen (mei_wait_loop_quiet 1000000 _))

theorem notifyAndWait_status (hw : Hw) :
    ((notifyAndWait hw).1 = EFI_SUCCESS ∨ (notifyAndWait hw).1 = 1) ∧
    ((notifyAndWait hw).1 = EFI_SUCCESS ↔ ∃ i, i < 1000000 ∧ readyAt hw (hw.pos + 1 + i) = 1) := by
  unfold notifyAndWait mei_wait_for_me_ready
  refine ⟨mei_wait_loop_status _ _, ?_⟩
  rw [mei_wait_loop_success_iff]
  rfl

theorem MeiSendMsg_eq (Mei : Ptr MeiHeader) (Mkhi : Ptr MkhiHeader) (ReqData : Nat → Nat)
    (hw : Hw) :
    MeiSendMsg Mei Mkhi ReqData hw =
      if payloadDwords Mei.val.length.val = 0 then (1, hw)
      else if capacityShort (MeiCsr.ofWord (secondCheck (payloadDwords Mei.val.length.val + 1) hw).1)
          (payloadDwords Mei.val.length.val + 1)
        then (1, (secondCheck (payloadDwords Mei.val.length.val + 1) hw).2)
        else sendBody Mei Mkhi ReqData (payloadDwords Mei.val.length.val + 1)
          (secondCheck (payloadDwords Mei.val.length.val + 1) hw).2 := rfl

theorem secondCheck_quiet (nData : Nat) (hw : Hw) : Quiet hw (secondCheck nData hw).2 := by
  unfold secondCheck
  split
  · exact (HeciRead_quiet _ hw).andThen ((mei_reset_quiet _).andThen (HeciRead_quiet _ _))
  · exact HeciRead_quiet _ hw

theorem sendBody_trace (Mei : Ptr MeiHeader) (Mkhi : Ptr MkhiHeader) (ReqData : Nat → Nat)
    (nData : Nat) (hw : Hw) :
    cbWrites (sendBody Mei Mkhi ReqData nData hw).2.trace =
      cbWrites hw.trace ++ (Mei.addr % UINT32_MOD :: Mkhi.addr % UINT32_MOD ::
        payloadWords ReqData (nData - 2)) := by
  unfold sendBody
  obtain ⟨_, _, h3⟩ := writeData_spec ReqData (nData - 1 - 1) 0
    (HeciWrite MEI_H_CB_WW Mkhi.addr (HeciWrite MEI_H_CB_WW Mei.addr hw))
  rw [(notifyAndWait_quiet _).cbWrites_eq, h3, cbWrites_append, cbWrites_map_data]
  simp only [HeciWrite, cbWrites_append, cbWrites, if_true, List.append_assoc, Nat.zero_add,
    payloadWords, Nat.sub_sub]
  rfl

theorem sendBody_status (Mei : Ptr MeiHeader) (Mkhi : Ptr MkhiHeader) (ReqData : Nat → Nat)
    (nData : Nat) (hw : Hw) :
    ((sendBody Mei Mkhi ReqData nData hw).1 = EFI_SUCCESS ∨
      (sendBody Mei Mkhi ReqData nData hw).1 = 1) ∧
    ((sendBody Mei Mkhi ReqData nData hw).1 = EFI_SUCCESS ↔
      ∃ i, i < 1000000 ∧ readyAt hw (hw.pos + 1 + i) = 1) := by
  unfold sendBody
  obtain ⟨h1, h2, _⟩ := writeData_spec ReqData (nData - 1 - 1) 0
    (HeciWrite MEI_H_CB_WW Mkhi.addr (HeciWrite MEI_H_CB_WW Mei.addr hw))
  have hs := notifyAndWait_status (writeData ReqData (nData - 1 - 1) 0
    (HeciWrite MEI_H_CB_WW Mkhi.addr (HeciWrite MEI_H_CB_WW Mei.addr hw)))
  have hm : ∀ k, readyAt (writeData ReqData (nData - 1 - 1) 0
      (HeciWrite MEI_H_CB_WW Mkhi.addr (HeciWrite MEI_H_CB_WW Mei.addr hw))) k = readyAt hw k := by
    intro k; unfold readyAt; rw [h1]; rfl
  have hp : (writeData ReqData (nData - 1 - 1) 0
      (HeciWrite MEI_H_CB_WW Mkhi.addr (HeciWrite MEI_H_CB_WW Mei.addr hw))).pos = hw.pos := by
    rw [h2]; rfl
  simp only [hm, hp] at hs
  exact hs

theorem payloadWords_length (ReqData : Nat → Nat) (k : Nat) :
    (payloadWords ReqData k).length = k := by
  simp [payloadWords]

theorem extends_trans {a b c : List Event} (h1 : a <+: b) (h2 : b <+: c) : a <+: c := by
  obtain ⟨l1, rfl⟩ := h1
  obtain ⟨l2, rfl⟩ := h2
  exact ⟨l1 ++ l2, (List.append_assoc a l1 l2).symm⟩

theorem extends_append (a l : List Event) : a <+: a ++ l :=
  ⟨l, rfl⟩

theorem sendBody_extends (Mei : Ptr MeiHeader) (Mkhi : Ptr MkhiHeader) (ReqData : Nat → Nat)
    (nData : Nat) (hw : Hw) : hw.trace <+: (sendBody Mei Mkhi ReqData nData hw).2.trace := by
  unfold sendBody
  obtain ⟨_, _, h3⟩ := writeData_spec ReqData (nData - 1 - 1) 0
    (HeciWrite MEI_H_CB_WW Mkhi.addr (HeciWrite MEI_H_CB_WW Mei.addr hw))
  refine extends_trans ?_ (notifyAndWait_quiet _).trace_extends
  rw [h3]
  simp only [HeciWrite, List.append_assoc]
  exact extends_append _ _

theorem wordsNeeded_eq (L : Nat) : payloadDwords L + 1 = wordsNeeded L := by
  rw [payloadDwords_eq]; unfold wordsNeeded; omega

theorem wordsNeeded_le (L : Nat) (hL : L < 512) : wordsNeeded L ≤ 4294967040 := by
  unfold wordsNeeded; omega

theorem payloadDwords_ne_zero (L : Nat) (hL : 0 < L) : payloadDwords L ≠ 0 := by
  rw [payloadDwords_eq]; omega

/-! ### Capacity check, reset and recheck -/

/-- The reset-and-recheck path of `MeiSendMsg` for CSR values of the data model:
when the first capacity check finds fewer free dwords than the message needs, `MeiSendMsg` writes nothing to the outbound data register before it has
called `mei_reset` and read the CSR again; if the CSR read again has room, exactly
the needed number of dwords is written and the send succeeds when the final wait
sees the ready bit; if it still has no room, the send fails having written
nothing. CSR values are those of the data model (`buffer_write_ptr` not above
`buffer_depth`). -/
theorem MeiSendMsg_reset_and_recheck (Mei : Ptr MeiHeader) (Mkhi : Ptr MkhiHeader)
    (ReqData : Nat → Nat) (hw : Hw)
    (hlen : 0 < Mei.val.length.val)
    (hinv : (firstCsr hw).buffer_write_ptr ≤ (firstCsr hw).buffer_depth)
    (hshort : (firstCsr hw).buffer_depth - (firstCsr hw).buffer_write_ptr
      < wordsNeeded Mei.val.length.val) :
    (cbWrites (rereadAfterReset hw).2.trace = cbWrites hw.trace ∧
      (rereadAfterReset hw).2.trace <+: (MeiSendMsg Mei Mkhi ReqData hw).2.trace) ∧
    (wordsNeeded Mei.val.length.val ≤ (MeiCsr.ofWord (rereadAfterReset hw).1).buffer_depth
        - (MeiCsr.ofWord (rereadAfterReset hw).1).buffer_write_ptr →
      (∃ ws, cbWrites (MeiSendMsg Mei Mkhi ReqData hw).2.trace = cbWrites hw.trace ++ ws ∧
        ws.length = wordsNeeded Mei.val.length.val) ∧
      ((∃ i, i < 1000000 ∧ readyAt hw ((rereadAfterReset hw).2.pos + 1 + i) = 1) →
        (MeiSendMsg Mei Mkhi ReqData hw).1 = EFI_SUCCESS)) ∧
    ((MeiCsr.ofWord (rereadAfterReset hw).1).buffer_write_ptr
        ≤ (MeiCsr.ofWord (rereadAfterReset hw).1).buffer_depth →
      (MeiCsr.ofWord (rereadAfterReset hw).1).buffer_depth
        - (MeiCsr.ofWord (rereadAfterReset hw).1).buffer_write_ptr
        < wordsNeeded Mei.val.length.val →
      (MeiSendMsg Mei Mkhi ReqData hw).1 ≠ EFI_SUCCESS ∧
        cbWrites (MeiSendMsg Mei Mkhi ReqData hw).2.trace = cbWrites hw.trace) := by
  have hL : Mei.val.length.val < 512 := Mei.val.length.isLt
  have hq : Quiet hw (rereadAfterReset hw).2 :=
    (HeciRead_quiet _ hw).andThen ((mei_reset_quiet _).andThen (HeciRead_quiet _ _))
  have hsc : secondCheck (payloadDwords Mei.val.length.val + 1) hw = rereadAfterReset hw := by
    unfold secondCheck
    rw [if_pos]
    · rfl
    · rw [wordsNeeded_eq]
      exact (capacityShort_iff _ _ (ofWord_fields_lt _).1 (ofWord_fields_lt _).2
        (wordsNeeded_le _ hL)).2 ⟨hinv, hshort⟩
  have hiff := capacityShort_iff (MeiCsr.ofWord (rereadAfterReset hw).1)
    (wordsNeeded Mei.val.length.val) (ofWord_fields_lt _).1 (ofWord_fields_lt _).2
    (wordsNeeded_le _ hL)
  have hn2 : 2 ≤ wordsNeeded Mei.val.length.val := by unfold wordsNeeded; omega
  rw [MeiSendMsg_eq, if_neg (payloadDwords_ne_zero _ hlen), hsc, wordsNeeded_eq]
  refine ⟨⟨hq.cbWrites_eq, ?_⟩, ?_, ?_⟩
  · split
    · exact ⟨[], List.append_nil _⟩
    · exact sendBody_extends _ _ _ _ _
  · intro hroom
    have hns : ¬ capacityShort (MeiCsr.ofWord (rereadAfterReset hw).1)
        (wordsNeeded Mei.val.length.val) = true := by
      rw [hiff]; omega
    rw [if_neg hns]
    refine ⟨⟨Mei.addr % UINT32_MOD :: Mkhi.addr % UINT32_MOD ::
      payloadWords ReqData (wordsNeeded Mei.val.length.val - 2), ?_, ?_⟩, ?_⟩
    · rw [sendBody_trace, hq.cbWrites_eq]
    · simp only [List.length_cons, payloadWords_length]; omega
    · rintro ⟨i, hi, hr⟩
      refine (sendBody_status _ _ _ _ _).2.2 ⟨i, hi, ?_⟩
      rw [readyAt_quiet hq]; exact hr
  · intro hinv1 hshort1
    rw [if_pos (hiff.2 ⟨hinv1, hshort1⟩)]
    exact ⟨Nat.one_ne_zero, hq.cbWrites_eq⟩

theorem MeiSendMsg_reset_and_recheck_witness :
    (firstCsr ⟨csrShortThenEmpty, 0, []⟩).buffer_depth = 64 ∧
    (firstCsr ⟨csrShortThenEmpty, 0, []⟩).buffer_write_ptr = 60 ∧
    wordsNeeded Mei28.length.val = 8 ∧
    (MeiSendMsg ⟨0, Mei28⟩ ⟨0, Mkhi_init⟩ (fun _ => 6) ⟨csrShortThenEmpty, 0, []⟩).1
      = EFI_SUCCESS ∧
    (∃ ws, cbWrites (MeiSendMsg ⟨0, Mei28⟩ ⟨0, Mkhi_init⟩ (fun _ => 6)
        ⟨csrShortThenEmpty, 0, []⟩).2.trace = cbWrites [] ++ ws ∧ ws.length = 8) := by
  have h := MeiSendMsg_reset_and_recheck ⟨0, Mei28⟩ ⟨0, Mkhi_init⟩ (fun _ => 6)
    ⟨csrShortThenEmpty, 0, []⟩ (by decide) (by decide) (by decide)
  have h2 := h.2.1 (by decide)
  exact ⟨by decide, by decide, by decide, h2.2 ⟨0, by decide, by decide⟩, h2.1⟩

/-- Under the CSR invariant of the data model (`buffer_write_ptr` not above
`buffer_depth`) at the second capacity check, `MeiSendMsg` writes at most the free
capacity, and nothing when the message does not fit. -/
theorem MeiSendMsg_within_capacity (Mei : Ptr MeiHeader) (Mkhi : Ptr MkhiHeader)
    (ReqData : Nat → Nat) (hw : Hw)
    (hinv : (MeiCsr.ofWord (secondCheck (wordsNeeded Mei.val.length.val) hw).1).buffer_write_ptr
      ≤ (MeiCsr.ofWord (secondCheck (wordsNeeded Mei.val.length.val) hw).1).buffer_depth) :
    ∃ ws, cbWrites (MeiSendMsg Mei Mkhi ReqData hw).2.trace = cbWrites hw.trace ++ ws ∧
      ws.length ≤ (MeiCsr.ofWord (secondCheck (wordsNeeded Mei.val.length.val) hw).1).buffer_depth
        - (MeiCsr.ofWord (secondCheck (wordsNeeded Mei.val.length.val) hw).1).buffer_write_ptr ∧
      ((MeiCsr.ofWord (secondCheck (wordsNeeded Mei.val.length.val) hw).1).buffer_depth
        - (MeiCsr.ofWord (secondCheck (wordsNeeded Mei.val.length.val) hw).1).buffer_write_ptr
          < wordsNeeded Mei.val.length.val → ws = []) := by
  have hL : Mei.val.length.val < 512 := Mei.val.length.isLt
  have hiff := capacityShort_iff
    (MeiCsr.ofWord (secondCheck (wordsNeeded Mei.val.length.val) hw).1)
    (wordsNeeded Mei.val.length.val) (ofWord_fields_lt _).1 (ofWord_fields_lt _).2
    (wordsNeeded_le _ hL)
  rw [MeiSendMsg_eq, wordsNeeded_eq]
  split
  · exact ⟨[], by simp, by simp, fun _ => rfl⟩
  · rename_i hne
    have hn2 : 2 ≤ wordsNeeded Mei.val.length.val := by
      rw [← wordsNeeded_eq]; omega
    split
    · exact ⟨[], by rw [(secondCheck_quiet _ hw).cbWrites_eq]; simp, by simp, fun _ => rfl⟩
    · rename_i hns
      rw [hiff] at hns
      refine ⟨Mei.addr % UINT32_MOD :: Mkhi.addr % UINT32_MOD ::
        payloadWords ReqData (wordsNeeded Mei.val.length.val - 2), ?_, ?_, ?_⟩
      · rw [sendBody_trace, (secondCheck_quiet _ hw).cbWrites_eq]
      · simp only [List.length_cons, payloadWords_length]; omega
      · intro h; exact absurd ⟨hinv, h⟩ hns

/-- C3 (the code at the failing input): with a CSR showing `buffer_depth = 60` and
`buffer_write_ptr = 64` and a message of 8 dwords, the first capacity comparison
wraps around: `MeiSendMsg` writes the 8 dwords right after its first CSR read,
without calling `mei_reset` and without reading the CSR again. -/
theorem MeiSendMsg_no_reset_past_depth :
    (firstCsr ⟨csrSixtyFourOfSixty, 0, []⟩).buffer_depth = 60 ∧
    (firstCsr ⟨csrSixtyFourOfSixty, 0, []⟩).buffer_write_ptr = 64 ∧
    wordsNeeded Mei28.length.val = 8 ∧
    (MeiSendMsg ⟨0x7F000FE0, Mei28⟩ ⟨0x7F000FE4, Mkhi_init⟩ (fun n => n + 1)
        ⟨csrSixtyFourOfSixty, 0, []⟩).2.trace =
      [ Event.heciRead MEI_H_CSR 0x3C400008,
        Event.heciWrite MEI_H_CB_WW 0x7F000FE0,
        Event.heciWrite MEI_H_CB_WW 0x7F000FE4,
        Event.heciWrite MEI_H_CB_WW 1,
        Event.heciWrite MEI_H_CB_WW 2,
        Event.heciWrite MEI_H_CB_WW 3,
        Event.heciWrite MEI_H_CB_WW 4,
        Event.heciWrite MEI_H_CB_WW 5,
        Event.heciWrite MEI_H_CB_WW 6,
        Event.heciRead MEI_H_CSR 0x3C400008,
        Event.heciWrite MEI_H_CSR 0x3C40000C,
        Event.heciRead MEI_H_CSR 0x3C400008 ] ∧
    (MeiSendMsg ⟨0x7F000FE0, Mei28⟩ ⟨0x7F000FE4, Mkhi_init⟩ (fun n => n + 1)
        ⟨csrSixtyFourOfSixty, 0, []⟩).1 = EFI_SUCCESS := by
  decide

/-- C4 (the code at the failing input): with a CSR showing `buffer_depth = 4` and
`buffer_write_ptr = 8` the capacity comparison wraps around, no reset is made and
the three dwords of the notification are written although no dword is free. -/
theorem MeiSendMsg_pointer_past_depth :
    (firstCsr ⟨csrPointerPastDepth, 0, []⟩).buffer_depth = 4 ∧
    (firstCsr ⟨csrPointerPastDepth, 0, []⟩).buffer_write_ptr = 8 ∧
    wordsNeeded Mei_init.length.val = 3 ∧
    (MeiSendMsg ⟨0x7F000FE0, Mei_init⟩ ⟨0x7F000FE4, Mkhi_init⟩ (fun _ => 6)
        ⟨csrPointerPastDepth, 0, []⟩).2.trace =
      [ Event.heciRead MEI_H_CSR 0x04080008,
        Event.heciWrite MEI_H_CB_WW 0x7F000FE0,
        Event.heciWrite MEI_H_CB_WW 0x7F000FE4,
        Event.heciWrite MEI_H_CB_WW 6,
        Event.heciRead MEI_H_CSR 0x04080008,
        Event.heciWrite MEI_H_CSR 0x0408000C,
        Event.heciRead MEI_H_CSR 0x04080008 ] := by
  decide

/-! ### Link timeout -/

theorem csrNeverReady_spec (k : Nat) : readyAt ⟨csrNeverReady, 0, []⟩ k = 0 := by
  show 0x40000000 % 4294967296 / 8 % 2 = 0
  norm_num

theorem mei_wait_never_ready (hw : Hw) (hnever : ∀ k, readyAt hw k = 0) :
    (mei_wait_for_me_ready hw).1 = 1 := by
  rcases mei_wait_loop_status 1000000 hw with h | h
  · obtain ⟨i, _, hr⟩ := (mei_wait_loop_success_iff 1000000 hw).1 h
    rw [hnever] at hr; exact absurd hr (by decide)
  · exact h

theorem waitAfterWrite_pos_le (v : Nat) (hw : Hw) :
    (mei_wait_loop 1000000 (HeciWrite MEI_H_CSR v (HeciRead MEI_H_CSR hw).2)).2.pos
      ≤ hw.pos + 1000001 :=
  le_trans (mei_wait_loop_pos_le 1000000 _) (le_of_eq (by
    show hw.pos + 1 + 1000000 = hw.pos + 1000001
    omega))

theorem mei_reset_pos_le (hw : Hw) : (mei_reset hw).pos ≤ hw.pos + 2000002 := by
  unfold mei_reset mei_wait_for_me_ready
  simp only
  have p1 := mei_wait_loop_pos_le 1000000 hw
  split
  · omega
  · split
    · exact le_trans (waitAfterWrite_pos_le _ _) (by omega)
    · show (HeciRead MEI_H_CSR _).2.pos ≤ _
      rw [HeciRead_pos]
      exact le_trans (Nat.add_le_add_right (waitAfterWrite_pos_le _ _) 1) (by omega)

theorem secondCheck_pos_le (nData : Nat) (hw : Hw) :
    (secondCheck nData hw).2.pos ≤ hw.pos + 2000004 := by
  unfold secondCheck
  split
  · rw [HeciRead_pos]
    have := mei_reset_pos_le (HeciRead MEI_H_CSR hw).2
    rw [HeciRead_pos] at this
    omega
  · rw [HeciRead_pos]; omega

theorem notifyAndWait_pos_le (hw : Hw) : (notifyAndWait hw).2.pos ≤ hw.pos + 1000001 :=
  waitAfterWrite_pos_le _ hw

theorem sendBody_pos_le (Mei : Ptr MeiHeader) (Mkhi : Ptr MkhiHeader) (ReqData : Nat → Nat)
    (nData : Nat) (hw : Hw) :
    (sendBody Mei Mkhi ReqData nData hw).2.pos ≤ hw.pos + 1000001 := by
  unfold sendBody
  obtain ⟨_, h2, _⟩ := writeData_spec ReqData (nData - 1 - 1) 0
    (HeciWrite MEI_H_CB_WW Mkhi.addr (HeciWrite MEI_H_CB_WW Mei.addr hw))
  have p := notifyAndWait_pos_le (writeData ReqData (nData - 1 - 1) 0
    (HeciWrite MEI_H_CB_WW Mkhi.addr (HeciWrite MEI_H_CB_WW Mei.addr hw)))
  rw [h2] at p
  exact p

/-- Whatever the hardware answers, `MeiSendMsg` ends after at most 3,000,005
register reads. -/
theorem MeiSendMsg_pos_le (Mei : Ptr MeiHeader) (Mkhi : Ptr MkhiHeader) (ReqData : Nat → Nat)
    (hw : Hw) : (MeiSendMsg Mei Mkhi ReqData hw).2.pos ≤ hw.pos + 3000005 := by
  rw [MeiSendMsg_eq]
  have p1 := secondCheck_pos_le (payloadDwords Mei.val.length.val + 1) hw
  split
  · show hw.pos ≤ _
    omega
  · split
    · show (secondCheck (payloadDwords Mei.val.length.val + 1) hw).2.pos ≤ _
      omega
    · have p2 := sendBody_pos_le Mei Mkhi ReqData (payloadDwords Mei.val.length.val + 1)
        (secondCheck (payloadDwords Mei.val.length.val + 1) hw).2
      omega

/-- C8: `mei_wait_for_me_ready` succeeds exactly when one of its first 1,000,000
CSR reads shows the ready bit; and when no CSR read ever shows the ready bit,
`MeiSendMsg` ends (after at most 3,000,005 register reads) with the non-success
status 1, for every message. -/
theorem MeiSendMsg_link_timeout :
    (∀ hw : Hw, (mei_wait_for_me_ready hw).1 = EFI_SUCCESS ↔
      ∃ i, i < 1000000 ∧ readyAt hw (hw.pos + i) = 1) ∧
    (∀ (Mei : Ptr MeiHeader) (Mkhi : Ptr MkhiHeader) (ReqData : Nat → Nat) (hw : Hw),
      (∀ k, readyAt hw k = 0) →
        (MeiSendMsg Mei Mkhi ReqData hw).1 = 1 ∧
        (MeiSendMsg Mei Mkhi ReqData hw).1 ≠ EFI_SUCCESS ∧
        (MeiSendMsg Mei Mkhi ReqData hw).2.pos ≤ hw.pos + 3000005) := by
  refine ⟨fun hw => mei_wait_loop_success_iff 1000000 hw, ?_⟩
  intro Mei Mkhi ReqData hw hnever
  have h1 : (MeiSendMsg Mei Mkhi ReqData hw).1 = 1 := by
    rw [MeiSendMsg_eq]
    split
    · rfl
    · split
      · rfl
      · rcases (sendBody_status Mei Mkhi ReqData (payloadDwords Mei.val.length.val + 1)
          (secondCheck (payloadDwords Mei.val.length.val + 1) hw).2).1 with h | h
        · obtain ⟨i, _, hr⟩ := (sendBody_status Mei Mkhi ReqData _ _).2.1 h
          rw [readyAt_quiet (secondCheck_quiet _ hw), hnever] at hr
          exact absurd hr (by decide)
        · exact h
  exact ⟨h1, by rw [h1]; exact Nat.one_ne_zero, MeiSendMsg_pos_le Mei Mkhi ReqData hw⟩

theorem MeiSendMsg_link_timeout_witness :
    (∀ k, readyAt ⟨csrNeverReady, 0, []⟩ k = 0) ∧
    (MeiSendMsg ⟨0x7F000FE0, Mei_init⟩ ⟨0x7F000FE4, Mkhi_init⟩ (fun _ => 6)
      ⟨csrNeverReady, 0, []⟩).1 ≠ EFI_SUCCESS :=
  ⟨csrNeverReady_spec,
    (MeiSendMsg_link_timeout.2 ⟨0x7F000FE0, Mei_init⟩ ⟨0x7F000FE4, Mkhi_init⟩ (fun _ => 6)
      ⟨csrNeverReady, 0, []⟩ csrNeverReady_spec).2.1⟩

/-! ### Words written to the outbound data register -/

/-- What a send that passes the capacity check writes to the outbound data
register: the low 32 bits of the two pointer parameters, then the payload
dwords. -/
theorem MeiSendMsg_written_words (Mei : Ptr MeiHeader) (Mkhi : Ptr MkhiHeader)
    (ReqData : Nat → Nat) (hw : Hw) (hlen : 0 < Mei.val.length.val)
    (hpass : capacityShort (MeiCsr.ofWord (secondCheck (wordsNeeded Mei.val.length.val) hw).1)
      (wordsNeeded Mei.val.length.val) = false) :
    cbWrites (MeiSendMsg Mei Mkhi ReqData hw).2.trace =
      cbWrites hw.trace ++ (Mei.addr % UINT32_MOD :: Mkhi.addr % UINT32_MOD ::
        payloadWords ReqData ((Mei.val.length.val + 3) / 4 - 1)) := by
  rw [MeiSendMsg_eq, if_neg (payloadDwords_ne_zero _ hlen), wordsNeeded_eq, hpass]
  simp only [Bool.false_eq_true, if_false]
  rw [sendBody_trace, (secondCheck_quiet _ hw).cbWrites_eq]
  unfold wordsNeeded
  congr 4
  omega

/-- C9 (the code at the failing input): for the call `MeiSendMsg(&Mei, &Mkhi, &Data)`
of `FlashCRCEntry`, with `Mei` stored at `0x7F000FE0` and `Mkhi` at `0x7F000FE4`,
the dwords written to the outbound data register are the two addresses and the
payload 6, while the header words are `0x80080007` and `0x00000303`. -/
theorem MeiSendMsg_writes_pointer_values :
    Mei_init.toWord = 0x80080007 ∧ Mkhi_init.toWord = 0x00000303 ∧
    envHealthy.MeiAddr = 0x7F000FE0 ∧ envHealthy.MkhiAddr = 0x7F000FE4 ∧
    cbWrites (notification envHealthy []).2.trace = [0x7F000FE0, 0x7F000FE4, 6] ∧
    cbWrites (notification envHealthy []).2.trace ≠ [0x80080007, 0x00000303, 6] ∧
    (notification envHealthy []).2.trace =
      [ Event.heciRead MEI_H_CSR 0x40000008,
        Event.heciWrite MEI_H_CB_WW 0x7F000FE0,
        Event.heciWrite MEI_H_CB_WW 0x7F000FE4,
        Event.heciWrite MEI_H_CB_WW 6,
        Event.heciRead MEI_H_CSR 0x40000008,
        Event.heciWrite MEI_H_CSR 0x4000000C,
        Event.heciRead MEI_H_CSR 0x40000008 ] := by
  decide

/-! ## The flash reads: facts -/

theorem readLoop_eq_readN (step count : Nat) (hstep : 0 < step) (stop : Nat) :
    ∀ (n i : Nat) (s : Locals), stop ≤ i + step * n → (∀ j, j < n → i + step * j < stop) →
      readLoop step count hstep stop i s = readN step count n i s := by
  intro n
  induction n with
  | zero =>
    intro i s h1 _
    rw [readLoop, if_neg (by omega)]
    rfl
  | succ n ih =>
    intro i s h1 h2
    have h0 : i < stop := by simpa using h2 0 (Nat.succ_pos n)
    rw [readLoop, if_pos h0]
    show _ = readN step count n (i + step) (readChunk count i s)
    apply ih
    · rw [Nat.mul_succ] at h1; omega
    · intro j hj
      have := h2 (j + 1) (by omega)
      rw [Nat.mul_succ] at this; omega

theorem readN_frame (step count : Nat) :
    ∀ (n i : Nat) (s : Locals),
      (readN step count n i s).Spi = s.Spi ∧ (readN step count n i s).RefCrc32 = s.RefCrc32 ∧
      (readN step count n i s).calls = s.calls + n := by
  intro n
  induction n with
  | zero => intro i s; exact ⟨rfl, rfl, rfl⟩
  | succ n ih =>
    intro i s
    obtain ⟨h1, h2, h3⟩ := ih (i + step) (readChunk count i s)
    refine ⟨h1, h2, ?_⟩
    show (readN step count n (i + step) (readChunk count i s)).calls = _
    rw [h3]
    show s.calls + 1 + n = _
    omega

theorem readN_trace (step count : Nat) :
    ∀ (n i : Nat) (s : Locals),
      (readN step count n i s).trace =
        s.trace ++ (List.range n).map (chunkEvent step count i s) := by
  intro n
  induction n with
  | zero => intro i s; simp [readN]
  | succ n ih =>
    intro i s
    show (readN step count n (i + step) (readChunk count i s)).trace = _
    rw [ih, List.range_succ_eq_map, List.map_cons, List.map_map]
    show s.trace ++ [chunkEvent step count i s 0] ++ _ = _
    rw [List.append_assoc, List.singleton_append]
    congr 2
    apply List.map_congr_left
    intro j _
    show Event.spiExecute 1 0 true true false (i + step + step * j) count
      (BufTarget.image (i + step + step * j)) 4
      (s.Spi.Execute (s.calls + 1 + j) (i + step + step * j) count).1 =
      Event.spiExecute 1 0 true true false (i + step * (j + 1)) count
      (BufTarget.image (i + step * (j + 1))) 4
      (s.Spi.Execute (s.calls + (j + 1)) (i + step * (j + 1)) count).1
    rw [Nat.mul_succ, Nat.add_assoc i, Nat.add_comm step, Nat.add_assoc s.calls,
      Nat.add_comm 1 j]

theorem readN_status (step count : Nat) :
    ∀ (n i : Nat) (s : Locals),
      (readN step count (n + 1) i s).Status =
        (s.Spi.Execute (s.calls + n) (i + step * n) count).1 := by
  intro n
  induction n with
  | zero => intro i s; rfl
  | succ n ih =>
    intro i s
    show (readN step count (n + 1) (i + step) (readChunk count i s)).Status = _
    rw [ih]
    show (s.Spi.Execute (s.calls + 1 + n) (i + step + step * n) count).1 = _
    rw [Nat.mul_succ, Nat.add_assoc i, Nat.add_comm step, Nat.add_assoc s.calls,
      Nat.add_comm 1 n]

theorem readChunk_buffer (c i : Nat) (s : Locals) (flash : Nat → UINT8)
    (hf : returnsFlash s.Spi flash) (off : Nat) :
    (readChunk c i s).Buffer off = if i ≤ off ∧ off < i + c then flash off else s.Buffer off := by
  show (if i ≤ off ∧ off < i + c then
      (match (s.Spi.Execute s.calls i c).2 (off - i) with
        | some b => b
        | none => s.Buffer off)
    else s.Buffer off) = _
  split
  · rename_i h
    rw [hf s.calls i c (off - i) (by omega)]
    show flash (i + (off - i)) = flash off
    congr 1; omega
  · rfl

theorem readN_buffer (c : Nat) (flash : Nat → UINT8) :
    ∀ (n i : Nat) (s : Locals), returnsFlash s.Spi flash → ∀ off,
      (readN c c n i s).Buffer off =
        if i ≤ off ∧ off < i + c * n then flash off else s.Buffer off := by
  intro n
  induction n with
  | zero =>
    intro i s _ off
    rw [if_neg (by omega)]
    rfl
  | succ n ih =>
    intro i s hf off
    show (readN c c n (i + c) (readChunk c i s)).Buffer off = _
    rw [ih (i + c) (readChunk c i s) hf off, readChunk_buffer c i s flash hf off, Nat.mul_succ]
    split_ifs <;> first | rfl | omega

theorem populate_eq (s : Locals) :
    populate s = readN 256 256 9216 0x5C0000 (readN 256 256 18848 0xE6000
      (readN 64 64 15 0x3000 (readN 256 256 16 0 s))) := by
  unfold populate
  simp only [GBE_REGION_SKIP_BASE, GBE_REGION_SKIP_SIZE, ME_REGION_SKIP_BASE, ME_REGION_SKIP_SIZE,
    NVRAM_REGION_SKIP_BASE, NVRAM_REGION_SKIP_SIZE, BIOS_SIZE]
  rw [readLoop_eq_readN 256 256 _ 0x1000 16 0 s (by omega) (by intro j hj; omega),
    readLoop_eq_readN 64 64 _ 0x33c0 15 _ _ (by omega) (by intro j hj; omega),
    readLoop_eq_readN 256 256 _ 0x580000 18848 _ _ (by omega) (by intro j hj; omega),
    readLoop_eq_readN 256 256 _ 0x800000 9216 _ _ (by omega) (by intro j hj; omega)]

/-! ### Shape of the trace of a run -/

theorem imageReads_append (a b : List Event) :
    imageReads (a ++ b) = imageReads a ++ imageReads b := by
  induction a with
  | nil => rfl
  | cons e es ih =>
    cases e <;> simp [imageReads, ih]
    rename_i t _ _
    cases t <;> simp [imageReads, ih]

theorem imageReads_eq_nil (l : List Event) (h : ∀ e ∈ l, isImageRead e = false) :
    imageReads l = [] := by
  induction l with
  | nil => rfl
  | cons e es ih =>
    have he := h e (List.mem_cons_self _ _)
    have ht := ih (fun x hx => h x (List.mem_cons_of_mem _ hx))
    cases e with
    | spiExecute a b c d f g h t r st =>
      cases t
      · simp [imageReads, ht]
      · simp [isImageRead] at he
    | _ => simp [imageReads, ht]

theorem writes32To_append (A : Nat) (a b : List Event) :
    writes32To A (a ++ b) = writes32To A a ++ writes32To A b := by
  induction a with
  | nil => rfl
  | cons e es ih =>
    cases e <;> simp [writes32To, ih]
    split <;> simp

theorem writes16To_append (A : Nat) (a b : List Event) :
    writes16To A (a ++ b) = writes16To A a ++ writes16To A b := by
  induction a with
  | nil => rfl
  | cons e es ih =>
    cases e <;> simp [writes16To, ih]
    split <;> simp

theorem writes32To_eq_nil (A : Nat) (l : List Event) (h : ∀ e ∈ l, isSpiCtl e = false) :
    writes32To A l = [] := by
  induction l with
  | nil => rfl
  | cons e es ih =>
    have he := h e (List.mem_cons_self _ _)
    have ht := ih (fun x hx => h x (List.mem_cons_of_mem _ hx))
    cases e <;> simp [writes32To, ht]
    simp [isSpiCtl] at he

theorem writes16To_eq_nil (A : Nat) (l : List Event) (h : ∀ e ∈ l, isSpiCtl e = false) :
    writes16To A l = [] := by
  induction l with
  | nil => rfl
  | cons e es ih =>
    have he := h e (List.mem_cons_self _ _)
    have ht := ih (fun x hx => h x (List.mem_cons_of_mem _ hx))
    cases e <;> simp [writes16To, ht]
    simp [isSpiCtl] at he

theorem isHeci_not_other (e : Event) (h : isHeci e = true) :
    isImageRead e = false ∧ isSpiCtl e = false := by
  cases e <;> simp [isHeci] at h <;> exact ⟨rfl, rfl⟩

theorem populated_eq (env : Env) :
    populated env = readN 256 256 9216 0x5C0000 (afterLoop3 env) :=
  populate_eq (beforeReads env)

theorem handleLoop_trace (env : Env) (P : Event → Prop)
    (hP1 : ∀ i st, P (Event.handleProtocol i st))
    (hP2 : ∀ st, P (Event.spiExecute 1 0 true true false 0x2ffc 4 BufTarget.refCrc 4 st)) :
    ∀ (hs : List (EFI_STATUS × Option EFI_SPI_PROTOCOL)) (i : Nat) (s : Locals),
      (∀ e ∈ s.trace, P e) → ∀ e ∈ (handleLoop env hs i s).trace, P e := by
  intro hs
  induction hs with
  | nil => intro i s h; exact h
  | cons hd tl ih =>
    intro i s h
    obtain ⟨st, p⟩ := hd
    unfold handleLoop
    apply ih
    simp only
    split
    · intro e he
      simp only [readRefCrc, List.mem_append, List.mem_singleton] at he
      rcases he with (he | he) | he
      · exact h e he
      · rw [he]; exact hP1 i st
      · rw [he]; exact hP2 _
    · intro e he
      simp only [List.mem_append, List.mem_singleton] at he
      rcases he with he | he
      · exact h e he
      · rw [he]; exact hP1 i st

theorem enumerate_trace (env : Env) :
    ∀ e ∈ (enumerate env).trace, isImageRead e = false ∧ isSpiCtl e = false := by
  unfold enumerate
  simp only
  have h0 : ∀ e ∈ [Event.locateHandleBuffer], isImageRead e = false ∧ isSpiCtl e = false := by
    intro e he
    rw [List.mem_singleton.1 he]; exact ⟨rfl, rfl⟩
  split
  · exact handleLoop_trace env _ (fun _ _ => ⟨rfl, rfl⟩) (fun _ => ⟨rfl, rfl⟩) _ _ _ h0
  · exact h0

theorem imageReads_loopEvents (step count i : Nat) (s : Locals) (l : List Nat) :
    imageReads (l.map (chunkEvent step count i s)) = l.map (chunkOf step count i s) := by
  induction l with
  | nil => rfl
  | cons a l ih => simp [chunkEvent, chunkOf, imageReads, ih]

theorem loopEvents_not_ctl (step count i : Nat) (s : Locals) (l : List Nat) :
    ∀ e ∈ l.map (chunkEvent step count i s), isSpiCtl e = false := by
  intro e he
  obtain ⟨j, _, rfl⟩ := List.mem_map.1 he
  rfl

theorem populated_trace (env : Env) :
    (populated env).trace = (beforeReads env).trace ++
      ((List.range 16).map (chunkEvent 256 256 0 (beforeReads env)) ++
      ((List.range 15).map (chunkEvent 64 64 0x3000 (afterLoop1 env)) ++
      ((List.range 18848).map (chunkEvent 256 256 0xE6000 (afterLoop2 env)) ++
      (List.range 9216).map (chunkEvent 256 256 0x5C0000 (afterLoop3 env))))) := by
  rw [populated_eq, readN_trace]
  unfold afterLoop3
  rw [readN_trace]
  unfold afterLoop2
  rw [readN_trace]
  unfold afterLoop1
  rw [readN_trace]
  simp only [List.append_assoc]

theorem beforeReads_trace (env : Env) :
    ∀ e ∈ (beforeReads env).trace, isImageRead e = false ∧ isSpiCtl e = false := by
  intro e he
  simp only [beforeReads, List.mem_append, List.mem_cons, List.mem_singleton,
    List.not_mem_nil, or_false] at he
  rcases he with he | he | he | he
  · exact enumerate_trace env e he
  · rw [he]; exact ⟨rfl, rfl⟩
  · rw [he]; exact ⟨rfl, rfl⟩
  · rw [he]; exact ⟨rfl, rfl⟩

theorem populated_imageReads (env : Env) :
    imageReads (populated env).trace = allChunks env := by
  rw [populated_trace]
  simp only [imageReads_append, imageReads_loopEvents]
  rw [imageReads_eq_nil _ (fun e he => (beforeReads_trace env e he).1)]
  rfl

theorem populated_not_ctl (env : Env) : ∀ e ∈ (populated env).trace, isSpiCtl e = false := by
  rw [populated_trace]
  intro e he
  simp only [List.mem_append] at he
  rcases he with he | he | he | he | he
  · exact (beforeReads_trace env e he).2
  · exact loopEvents_not_ctl _ _ _ _ _ e he
  · exact loopEvents_not_ctl _ _ _ _ _ e he
  · exact loopEvents_not_ctl _ _ _ _ _ e he
  · exact loopEvents_not_ctl _ _ _ _ _ e he

theorem HeciExt.chain {a b c : Hw} (h1 : HeciExt a b) (h2 : HeciExt b c) : HeciExt a c := by
  obtain ⟨l1, t1, k1⟩ := h1
  obtain ⟨l2, t2, k2⟩ := h2
  refine ⟨l1 ++ l2, by rw [t2, t1, List.append_assoc], ?_⟩
  intro e he
  rcases List.mem_append.1 he with h | h
  · exact k1 e h
  · exact k2 e h

theorem Quiet.heciExt {a b : Hw} (h : Quiet a b) : HeciExt a b := by
  obtain ⟨_, _, l, t, _, k⟩ := h
  exact ⟨l, t, k⟩

theorem HeciWrite_heciExt (Reg v : Nat) (hw : Hw) : HeciExt hw (HeciWrite Reg v hw) :=
  ⟨[Event.heciWrite Reg (v % UINT32_MOD)], rfl, by simp [isHeci]⟩

theorem writeData_heciExt (data : Nat → Nat) (count n : Nat) (hw : Hw) :
    HeciExt hw (writeData data count n hw) := by
  obtain ⟨_, _, h3⟩ := writeData_spec data count n hw
  refine ⟨_, h3, ?_⟩
  intro e he
  obtain ⟨j, _, rfl⟩ := List.mem_map.1 he
  rfl

theorem MeiSendMsg_heciExt (Mei : Ptr MeiHeader) (Mkhi : Ptr MkhiHeader) (ReqData : Nat → Nat)
    (hw : Hw) : HeciExt hw (MeiSendMsg Mei Mkhi ReqData hw).2 := by
  rw [MeiSendMsg_eq]
  split
  · exact ⟨[], by simp, by simp⟩
  · split
    · exact (secondCheck_quiet _ hw).heciExt
    · unfold sendBody
      exact (secondCheck_quiet _ hw).heciExt.chain
        ((HeciWrite_heciExt _ _ _).chain ((HeciWrite_heciExt _ _ _).chain
          ((writeData_heciExt _ _ _ _).chain (notifyAndWait_quiet _).heciExt)))

/-- The trace of a run: flash phase, checksum, HECI notification, protection
registers, gate. -/
theorem FlashCRCEntry_trace (env : Env) :
    ∃ l, (∀ e ∈ l, isHeci e = true) ∧
      (FlashCRCEntry env).trace =
        (populated env).trace ++
          ([Event.calculateCrc32 BIOS_SIZE (computedCrc env), Event.freePool, Event.freePool,
            Event.pciRead32 (env.HeciBar % UINT32_MOD)] ++
          (l ++ ([Event.pciRead32 (env.Rcba % UINT32_MOD)] ++
          (protectEvents env ++ (gate (populated env).RefCrc32 (computedCrc env)).1)))) := by
  obtain ⟨l, hl, hk⟩ := MeiSendMsg_heciExt ⟨env.MeiAddr, Mei_init⟩ ⟨env.MkhiAddr, Mkhi_init⟩
    (fun _ => 6) { mmio := env.heci, pos := 0, trace := (populated env).trace ++
      [Event.calculateCrc32 BIOS_SIZE (computedCrc env), Event.freePool, Event.freePool] ++
      [Event.pciRead32 (env.HeciBar % UINT32_MOD)] }
  refine ⟨l, hk, ?_⟩
  show (notification env _).2.trace ++ _ ++ _ ++ _ = _
  unfold notification
  rw [hl]
  simp only [List.append_assoc, List.cons_append, List.nil_append]

theorem FlashCRCEntry_imageReads (env : Env) :
    imageReads (FlashCRCEntry env).trace = allChunks env := by
  obtain ⟨l, hk, ht⟩ := FlashCRCEntry_trace env
  rw [ht]
  simp only [imageReads_append, populated_imageReads]
  rw [imageReads_eq_nil l (fun e he => (isHeci_not_other e (hk e he)).1)]
  have hg : imageReads (gate (populated env).RefCrc32 (computedCrc env)).1 = [] := by
    unfold gate; split <;> rfl
  rw [hg]
  simp [imageReads, protectEvents]

theorem mem_allChunks (env : Env) (r : ChunkRead) :
    r ∈ allChunks env ↔
      (∃ j, j < 16 ∧ r = chunkOf 256 256 0 (beforeReads env) j) ∨
      (∃ j, j < 15 ∧ r = chunkOf 64 64 0x3000 (afterLoop1 env) j) ∨
      (∃ j, j < 18848 ∧ r = chunkOf 256 256 0xE6000 (afterLoop2 env) j) ∨
      (∃ j, j < 9216 ∧ r = chunkOf 256 256 0x5C0000 (afterLoop3 env) j) := by
  unfold allChunks
  simp only [List.mem_append, List.mem_map, List.mem_range, eq_comm]

theorem allChunks_ascending (env : Env) :
    (allChunks env).Pairwise (fun r1 r2 => r1.Address + r1.DataByteCount ≤ r2.Address) := by
  have hloop : ∀ (c i n : Nat) (s : Locals),
      ((List.range n).map (chunkOf c c i s)).Pairwise
        (fun r1 r2 => r1.Address + r1.DataByteCount ≤ r2.Address) := by
    intro c i n s
    rw [List.pairwise_map]
    refine (List.pairwise_lt_range n).imp ?_
    intro a b hab
    show i + c * a + c ≤ i + c * b
    have : c * (a + 1) ≤ c * b := Nat.mul_le_mul_left c hab
    rw [Nat.mul_succ] at this
    omega
  unfold allChunks
  refine List.pairwise_append.2 ⟨hloop _ _ _ _, List.pairwise_append.2 ⟨hloop _ _ _ _,
    List.pairwise_append.2 ⟨hloop _ _ _ _, hloop _ _ _ _, ?_⟩, ?_⟩, ?_⟩
  · intro a ha b hb
    obtain ⟨j, hj, rfl⟩ := List.mem_map.1 ha
    obtain ⟨k, hk, rfl⟩ := List.mem_map.1 hb
    rw [List.mem_range] at hj hk
    show 0xE6000 + 256 * j + 256 ≤ 0x5C0000 + 256 * k
    omega
  · intro a ha b hb
    obtain ⟨j, hj, rfl⟩ := List.mem_map.1 ha
    rw [List.mem_range] at hj
    simp only [List.mem_append, List.mem_map, List.mem_range] at hb
    rcases hb with ⟨k, hk, rfl⟩ | ⟨k, hk, rfl⟩
    · show 0x3000 + 64 * j + 64 ≤ 0xE6000 + 256 * k
      omega
    · show 0x3000 + 64 * j + 64 ≤ 0x5C0000 + 256 * k
      omega
  · intro a ha b hb
    obtain ⟨j, hj, rfl⟩ := List.mem_map.1 ha
    rw [List.mem_range] at hj
    simp only [List.mem_append, List.mem_map, List.mem_range] at hb
    rcases hb with ⟨k, hk, rfl⟩ | ⟨k, hk, rfl⟩ | ⟨k, hk, rfl⟩
    · show 0 + 256 * j + 256 ≤ 0x3000 + 64 * k
      omega
    · show 0 + 256 * j + 256 ≤ 0xE6000 + 256 * k
      omega
    · show 0 + 256 * j + 256 ≤ 0x5C0000 + 256 * k
      omega

/-- C1: for every environment (every transport, every status it returns), the
byte ranges of the reads `FlashCRCEntry` issues into the image buffer cover
exactly `[0, 0x800000)` minus the three excluded ranges, are pairwise disjoint,
and each read goes to the buffer offset equal to its flash address. -/
theorem image_reads_cover_non_excluded (env : Env) :
    (∀ a, (∃ r ∈ imageReads (FlashCRCEntry env).trace,
        r.Address ≤ a ∧ a < r.Address + r.DataByteCount) ↔
      (a < 0x800000 ∧ excluded a = false)) ∧
    (imageReads (FlashCRCEntry env).trace).Pairwise
      (fun r1 r2 => r1.Address + r1.DataByteCount ≤ r2.Address ∨
        r2.Address + r2.DataByteCount ≤ r1.Address) ∧
    (∀ r ∈ imageReads (FlashCRCEntry env).trace, r.BufferOffset = r.Address) := by
  rw [FlashCRCEntry_imageReads]
  refine ⟨?_, (allChunks_ascending env).imp (fun h => Or.inl h), ?_⟩
  · intro a
    simp only [excluded, decide_eq_false_iff_not]
    constructor
    · rintro ⟨r, hr, h1, h2⟩
      rw [mem_allChunks] at hr
      rcases hr with ⟨j, hj, rfl⟩ | ⟨j, hj, rfl⟩ | ⟨j, hj, rfl⟩ | ⟨j, hj, rfl⟩ <;>
        (simp only [chunkOf] at h1 h2; omega)
    · rintro ⟨ha, hex⟩
      by_cases c1 : a < 0x1000
      · exact ⟨chunkOf 256 256 0 (beforeReads env) (a / 256),
          (mem_allChunks env _).2 (Or.inl ⟨_, by omega, rfl⟩),
          by simp only [chunkOf]; omega, by simp only [chunkOf]; omega⟩
      by_cases c2 : a < 0x33c0
      · exact ⟨chunkOf 64 64 0x3000 (afterLoop1 env) ((a - 0x3000) / 64),
          (mem_allChunks env _).2 (Or.inr (Or.inl ⟨_, by omega, rfl⟩)),
          by simp only [chunkOf]; omega, by simp only [chunkOf]; omega⟩
      by_cases c3 : a < 0x580000
      · exact ⟨chunkOf 256 256 0xE6000 (afterLoop2 env) ((a - 0xE6000) / 256),
          (mem_allChunks env _).2 (Or.inr (Or.inr (Or.inl ⟨_, by omega, rfl⟩))),
          by simp only [chunkOf]; omega, by simp only [chunkOf]; omega⟩
      · exact ⟨chunkOf 256 256 0x5C0000 (afterLoop3 env) ((a - 0x5C0000) / 256),
          (mem_allChunks env _).2 (Or.inr (Or.inr (Or.inr ⟨_, by omega, rfl⟩))),
          by simp only [chunkOf]; omega, by simp only [chunkOf]; omega⟩
  · intro r hr
    rw [mem_allChunks] at hr
    rcases hr with ⟨j, hj, rfl⟩ | ⟨j, hj, rfl⟩ | ⟨j, hj, rfl⟩ | ⟨j, hj, rfl⟩ <;> rfl

/-! ### The image buffer and the checksum -/

theorem afterLoops_Spi (env : Env) :
    (beforeReads env).Spi = (enumerate env).Spi ∧ (afterLoop1 env).Spi = (enumerate env).Spi ∧
    (afterLoop2 env).Spi = (enumerate env).Spi ∧ (afterLoop3 env).Spi = (enumerate env).Spi ∧
    (populated env).Spi = (enumerate env).Spi := by
  have h0 : (beforeReads env).Spi = (enumerate env).Spi := rfl
  have h1 : (afterLoop1 env).Spi = (enumerate env).Spi := by
    unfold afterLoop1; rw [(readN_frame _ _ _ _ _).1, h0]
  have h2 : (afterLoop2 env).Spi = (enumerate env).Spi := by
    unfold afterLoop2; rw [(readN_frame _ _ _ _ _).1, h1]
  have h3 : (afterLoop3 env).Spi = (enumerate env).Spi := by
    unfold afterLoop3; rw [(readN_frame _ _ _ _ _).1, h2]
  exact ⟨h0, h1, h2, h3, by rw [populated_eq, (readN_frame _ _ _ _ _).1, h3]⟩

theorem populated_RefCrc32 (env : Env) : (populated env).RefCrc32 = (enumerate env).RefCrc32 := by
  rw [populated_eq, (readN_frame _ _ _ _ _).2.1]
  unfold afterLoop3
  rw [(readN_frame _ _ _ _ _).2.1]
  unfold afterLoop2
  rw [(readN_frame _ _ _ _ _).2.1]
  unfold afterLoop1
  rw [(readN_frame _ _ _ _ _).2.1]
  rfl

theorem populated_Status (env : Env) :
    (populated env).Status =
      ((enumerate env).Spi.Execute ((afterLoop3 env).calls + 9215) 0x7FFF00 256).1 := by
  rw [populated_eq]
  show (readN 256 256 (9215 + 1) 0x5C0000 (afterLoop3 env)).Status = _
  rw [readN_status, (afterLoops_Spi env).2.2.2.1]

theorem populated_buffer (env : Env) (flash : Nat → UINT8)
    (hf : returnsFlash (enumerate env).Spi flash) (off : Nat) (hoff : off < BIOS_SIZE) :
    (populated env).Buffer off = if excluded off = true then 0 else flash off := by
  obtain ⟨h0, h1, h2, h3, _⟩ := afterLoops_Spi env
  rw [populated_eq, readN_buffer 256 flash 9216 0x5C0000 (afterLoop3 env) (by rw [h3]; exact hf)]
  unfold afterLoop3
  rw [readN_buffer 256 flash 18848 0xE6000 (afterLoop2 env) (by rw [h2]; exact hf)]
  unfold afterLoop2
  rw [readN_buffer 64 flash 15 0x3000 (afterLoop1 env) (by rw [h1]; exact hf)]
  unfold afterLoop1
  rw [readN_buffer 256 flash 16 0 (beforeReads env) (by rw [h0]; exact hf)]
  have hz : (beforeReads env).Buffer off = 0 := rfl
  rw [hz]
  unfold BIOS_SIZE at hoff
  simp only [excluded, decide_eq_true_eq]
  split_ifs <;> first | rfl | omega

theorem FlashCRCEntry_CalcCrc32 (env : Env) : (FlashCRCEntry env).CalcCrc32 = computedCrc env :=
  rfl

theorem Run_proj (a : Outcome) (b : List Event) (c d : Nat) (e : EFI_STATUS) (f : Nat → UINT8) :
    (Run.mk a b c d e f).outcome = a ∧ (Run.mk a b c d e f).trace = b ∧
    (Run.mk a b c d e f).RefCrc32 = c ∧ (Run.mk a b c d e f).CalcCrc32 = d ∧
    (Run.mk a b c d e f).Status = e ∧ (Run.mk a b c d e f).Buffer = f :=
  ⟨rfl, rfl, rfl, rfl, rfl, rfl⟩

theorem FlashCRCEntry_Buffer (env : Env) :
    (FlashCRCEntry env).Buffer = (populated env).Buffer := by
  unfold FlashCRCEntry
  exact (Run_proj _ _ _ _ _ _).2.2.2.2.2

theorem FlashCRCEntry_Status (env : Env) :
    (FlashCRCEntry env).Status = (populated env).Status := by
  unfold FlashCRCEntry
  exact (Run_proj _ _ _ _ _ _).2.2.2.2.1

theorem FlashCRCEntry_RefCrc32 (env : Env) :
    (FlashCRCEntry env).RefCrc32 = (populated env).RefCrc32 := by
  unfold FlashCRCEntry
  exact (Run_proj _ _ _ _ _ _).2.2.1

theorem FlashCRCEntry_outcome (env : Env) :
    (FlashCRCEntry env).outcome = (gate (populated env).RefCrc32 (computedCrc env)).2 := by
  unfold FlashCRCEntry
  exact (Run_proj _ _ _ _ _ _).1

theorem computedCrc_congr (env1 env2 : Env) (hcrc : env1.CalculateCrc32 = env2.CalculateCrc32)
    (hb : ∀ off, off < BIOS_SIZE → (populated env1).Buffer off = (populated env2).Buffer off) :
    computedCrc env1 = computedCrc env2 := by
  have hl : (List.range BIOS_SIZE).map (populated env1).Buffer =
      (List.range BIOS_SIZE).map (populated env2).Buffer :=
    List.map_congr_left (fun off hoff => hb off (List.mem_range.1 hoff))
  unfold computedCrc
  rw [hcrc, hl]

/-- C2: for two flash contents that agree outside the excluded ranges, read
through transports that deliver the flash bytes (with any statuses), the image
buffer of `FlashCRCEntry` is the same in both runs: the flash byte at every offset
outside the excluded ranges, zero inside them; hence the checksum computed over
its `0x800000` bytes is the same. -/
theorem checksum_ignores_excluded_ranges (env1 env2 : Env) (flash1 flash2 : Nat → UINT8)
    (h1 : returnsFlash (enumerate env1).Spi flash1)
    (h2 : returnsFlash (enumerate env2).Spi flash2)
    (hagree : ∀ a, excluded a = false → flash1 a = flash2 a)
    (hcrc : env1.CalculateCrc32 = env2.CalculateCrc32) :
    (∀ off, off < BIOS_SIZE →
      (FlashCRCEntry env1).Buffer off = if excluded off = true then 0 else flash1 off) ∧
    (∀ off, off < BIOS_SIZE →
      (FlashCRCEntry env2).Buffer off = if excluded off = true then 0 else flash2 off) ∧
    (∀ off, off < BIOS_SIZE → (FlashCRCEntry env1).Buffer off = (FlashCRCEntry env2).Buffer off) ∧
    (FlashCRCEntry env1).CalcCrc32 = (FlashCRCEntry env2).CalcCrc32 := by
  have b1 : ∀ off, off < BIOS_SIZE →
      (populated env1).Buffer off = if excluded off = true then 0 else flash1 off :=
    fun off hoff => populated_buffer env1 flash1 h1 off hoff
  have b2 : ∀ off, off < BIOS_SIZE →
      (populated env2).Buffer off = if excluded off = true then 0 else flash2 off :=
    fun off hoff => populated_buffer env2 flash2 h2 off hoff
  have b12 : ∀ off, off < BIOS_SIZE → (populated env1).Buffer off = (populated env2).Buffer off := by
    intro off hoff
    rw [b1 off hoff, b2 off hoff]
    cases hx : excluded off
    · simp only [Bool.false_eq_true, if_false]; exact hagree off hx
    · rfl
  refine ⟨?_, ?_, ?_, ?_⟩
  · rw [FlashCRCEntry_Buffer]; exact b1
  · rw [FlashCRCEntry_Buffer]; exact b2
  · rw [FlashCRCEntry_Buffer, FlashCRCEntry_Buffer]; exact b12
  · rw [FlashCRCEntry_CalcCrc32, FlashCRCEntry_CalcCrc32]
    exact computedCrc_congr env1 env2 hcrc b12

theorem spiOfFlash_returnsFlash (flash : Nat → UINT8) (status : Nat → EFI_STATUS) :
    returnsFlash (spiOfFlash flash status) flash :=
  fun _ _ _ _ _ => rfl

theorem checksum_ignores_excluded_ranges_witness :
    flashZero 0x1000 ≠ flashGbeOnes 0x1000 ∧
    (FlashCRCEntry (envOf (spiOfFlash flashZero (fun _ => 0)) byteSum csrEmptyReady)).CalcCrc32 =
      (FlashCRCEntry (envOf (spiOfFlash flashGbeOnes (fun _ => 0)) byteSum csrNeverReady)).CalcCrc32 :=
  ⟨by decide,
    (checksum_ignores_excluded_ranges
      (envOf (spiOfFlash flashZero (fun _ => 0)) byteSum csrEmptyReady)
      (envOf (spiOfFlash flashGbeOnes (fun _ => 0)) byteSum csrNeverReady)
      flashZero flashGbeOnes
      (spiOfFlash_returnsFlash _ _) (spiOfFlash_returnsFlash _ _)
      (by
        intro a ha
        simp only [excluded, decide_eq_false_iff_not] at ha
        show (0 : UINT8) = if 0x1000 ≤ a ∧ a < 0x3000 then 1 else 0
        rw [if_neg (by omega)])
      rfl).2.2.2⟩

/-! ### Status of the chunk reads -/

theorem allChunks_last (env : Env) :
    ∃ init, allChunks env = init ++ [chunkOf 256 256 0x5C0000 (afterLoop3 env) 9215] := by
  have hr : List.range 9216 = List.range 9215 ++ [9215] := List.range_succ 9215
  unfold allChunks
  rw [hr, List.map_append]
  refine ⟨(List.range 16).map (chunkOf 256 256 0 (beforeReads env)) ++
    ((List.range 15).map (chunkOf 64 64 0x3000 (afterLoop1 env)) ++
    ((List.range 18848).map (chunkOf 256 256 0xE6000 (afterLoop2 env)) ++
    (List.range 9215).map (chunkOf 256 256 0x5C0000 (afterLoop3 env)))), ?_⟩
  simp only [List.append_assoc, List.map_cons, List.map_nil]

theorem allChunks_length (env : Env) : (allChunks env).length = 28095 := by
  simp only [allChunks, List.length_append, List.length_map, List.length_range]

theorem allChunks_count_pos (env : Env) (r : ChunkRead) (hr : r ∈ allChunks env) :
    0 < r.DataByteCount := by
  rw [mem_allChunks] at hr
  rcases hr with ⟨j, _, rfl⟩ | ⟨j, _, rfl⟩ | ⟨j, _, rfl⟩ | ⟨j, _, rfl⟩ <;>
    (simp only [chunkOf]; omega)

/-- C10 (counterexample): with a transport whose first chunk read fails and whose
later reads succeed, one chunk read of the run returned a non-success status and
the status held after population is `EFI_SUCCESS`. -/
theorem chunk_failure_overwritten :
    (∃ r ∈ imageReads (FlashCRCEntry envFailFirst).trace, r.Status ≠ EFI_SUCCESS) ∧
    (FlashCRCEntry envFailFirst).Status = EFI_SUCCESS := by
  rw [FlashCRCEntry_imageReads, FlashCRCEntry_Status, populated_Status]
  refine ⟨⟨chunkOf 256 256 0 (beforeReads envFailFirst) 0,
    (mem_allChunks _ _).2 (Or.inl ⟨0, by omega, rfl⟩), ?_⟩, ?_⟩
  · show (if 0 + 256 * 0 = 0 then 0x8000000000000007 else EFI_SUCCESS) ≠ EFI_SUCCESS
    decide
  · show (if 0x7FFF00 = 0 then 0x8000000000000007 else EFI_SUCCESS) = EFI_SUCCESS
    decide

/-- C10 (amended): after population `Status` holds the status returned by the
last chunk read, the one at `0x7FFF00`; the 28095 chunk reads have pairwise
different addresses (none is issued twice); and the outcome of the run is decided
by the two checksums, not by `Status`. -/
theorem chunk_status_is_last_read (env : Env) :
    (imageReads (FlashCRCEntry env).trace).getLast?.map ChunkRead.Status
      = some (FlashCRCEntry env).Status ∧
    (imageReads (FlashCRCEntry env).trace).getLast?.map ChunkRead.Address = some 0x7FFF00 ∧
    ((imageReads (FlashCRCEntry env).trace).map ChunkRead.Address).Nodup ∧
    (imageReads (FlashCRCEntry env).trace).length = 28095 ∧
    (FlashCRCEntry env).outcome =
      (gate (FlashCRCEntry env).RefCrc32 (FlashCRCEntry env).CalcCrc32).2 := by
  rw [FlashCRCEntry_imageReads, FlashCRCEntry_Status, populated_Status, FlashCRCEntry_outcome,
    FlashCRCEntry_RefCrc32, FlashCRCEntry_CalcCrc32]
  obtain ⟨init, hinit⟩ := allChunks_last env
  refine ⟨?_, ?_, ?_, allChunks_length env, rfl⟩
  · rw [hinit, List.getLast?_concat, Option.map_some']
    simp only [chunkOf, (afterLoops_Spi env).2.2.2.1]
  · rw [hinit, List.getLast?_concat, Option.map_some']
    simp only [chunkOf]
  · unfold List.Nodup
    rw [List.pairwise_map]
    refine (allChunks_ascending env).imp_of_mem ?_
    intro a b ha _ hab
    have := allChunks_count_pos env a ha
    omega

/-! ## The gate -/

theorem gate_eq (r c : Nat) :
    gate r c = if r = c then ([Event.printGood c], Outcome.returned EFI_SUCCESS)
      else ([Event.printBad c, Event.cli], Outcome.halted) := by
  unfold gate
  by_cases h : r = c
  · rw [if_neg (not_not.2 h), if_pos h]
  · rw [if_pos h, if_neg h]

theorem outcome_and_last_events (env : Env) :
    ((FlashCRCEntry env).outcome = Outcome.returned EFI_SUCCESS ↔
      (FlashCRCEntry env).RefCrc32 = (FlashCRCEntry env).CalcCrc32) ∧
    ((FlashCRCEntry env).outcome = Outcome.halted ↔
      (FlashCRCEntry env).RefCrc32 ≠ (FlashCRCEntry env).CalcCrc32) ∧
    (∃ pre, (FlashCRCEntry env).trace = pre ++
      (if (FlashCRCEntry env).RefCrc32 = (FlashCRCEntry env).CalcCrc32
        then [Event.printGood (FlashCRCEntry env).CalcCrc32]
        else [Event.printBad (FlashCRCEntry env).CalcCrc32, Event.cli])) ∧
    (FlashCRCEntry env).outcome =
      (gate (FlashCRCEntry env).RefCrc32 (FlashCRCEntry env).CalcCrc32).2 := by
  obtain ⟨l, _, ht⟩ := FlashCRCEntry_trace env
  rw [FlashCRCEntry_outcome, FlashCRCEntry_RefCrc32, FlashCRCEntry_CalcCrc32, ht]
  by_cases h : (populated env).RefCrc32 = computedCrc env
  · have hg : gate (populated env).RefCrc32 (computedCrc env) =
        ([Event.printGood (computedCrc env)], Outcome.returned EFI_SUCCESS) := by
      rw [gate_eq, if_pos h]
    rw [hg, if_pos h]
    refine ⟨⟨fun _ => h, fun _ => rfl⟩, ⟨fun hh => ?_, fun hh => absurd h hh⟩, ?_, rfl⟩
    · exact absurd hh (by simp)
    · exact ⟨(populated env).trace ++
        ([Event.calculateCrc32 BIOS_SIZE (computedCrc env), Event.freePool, Event.freePool,
          Event.pciRead32 (env.HeciBar % UINT32_MOD)] ++
        (l ++ ([Event.pciRead32 (env.Rcba % UINT32_MOD)] ++ protectEvents env))),
        by simp only [List.append_assoc]⟩
  · have hg : gate (populated env).RefCrc32 (computedCrc env) =
        ([Event.printBad (computedCrc env), Event.cli], Outcome.halted) := by
      rw [gate_eq, if_neg h]
    rw [hg, if_neg h]
    refine ⟨⟨fun hh => ?_, fun hh => absurd hh h⟩, ⟨fun _ => h, fun _ => rfl⟩, ?_, rfl⟩
    · exact absurd hh (by simp)
    · exact ⟨(populated env).trace ++
        ([Event.calculateCrc32 BIOS_SIZE (computedCrc env), Event.freePool, Event.freePool,
          Event.pciRead32 (env.HeciBar % UINT32_MOD)] ++
        (l ++ ([Event.pciRead32 (env.Rcba % UINT32_MOD)] ++ protectEvents env))),
        by simp only [List.append_assoc]⟩

/-- C6: `FlashCRCEntry` returns `EFI_SUCCESS` exactly when `RefCrc32` equals
`CalcCrc32`, and halts exactly when they differ; its last actions are the success
message, or the failure message with the computed value followed by `cli`; the
outcome is the value of `gate` at the two checksums, whatever the transport
statuses and the controller link did. -/
theorem gate_decides_on_checksums (env : Env) :
    ((FlashCRCEntry env).outcome = Outcome.returned EFI_SUCCESS ↔
      (FlashCRCEntry env).RefCrc32 = (FlashCRCEntry env).CalcCrc32) ∧
    ((FlashCRCEntry env).outcome = Outcome.halted ↔
      (FlashCRCEntry env).RefCrc32 ≠ (FlashCRCEntry env).CalcCrc32) ∧
    (∃ pre, (FlashCRCEntry env).trace = pre ++
      (if (FlashCRCEntry env).RefCrc32 = (FlashCRCEntry env).CalcCrc32
        then [Event.printGood (FlashCRCEntry env).CalcCrc32]
        else [Event.printBad (FlashCRCEntry env).CalcCrc32, Event.cli])) ∧
    (FlashCRCEntry env).outcome =
      (gate (FlashCRCEntry env).RefCrc32 (FlashCRCEntry env).CalcCrc32).2 :=
  outcome_and_last_events env

theorem envWithChecksums_RefCrc32 (r c : Nat) (heci : Nat → Nat → Nat) (hr : r < 4294967296) :
    (FlashCRCEntry (envWithChecksums r c heci)).RefCrc32 = r := by
  rw [FlashCRCEntry_RefCrc32, populated_RefCrc32]
  simp only [enumerate, envWithChecksums, envOf, handleLoop, readRefCrc, spiOfFlash,
    flashWithRef, EFI_SUCCESS]
  simp [Fin.ofNat]
  omega

theorem envWithChecksums_CalcCrc32 (r c : Nat) (heci : Nat → Nat → Nat) (hc : c < 4294967296) :
    (FlashCRCEntry (envWithChecksums r c heci)).CalcCrc32 = c := by
  rw [FlashCRCEntry_CalcCrc32]
  show c % UINT32_MOD = c
  exact Nat.mod_eq_of_lt hc

/-- Every pair of 32-bit checksums arises in some run. -/
theorem every_checksum_pair_arises (r c : Nat) (hr : r < 4294967296) (hc : c < 4294967296) :
    ∃ env, (FlashCRCEntry env).RefCrc32 = r ∧ (FlashCRCEntry env).CalcCrc32 = c :=
  ⟨envWithChecksums r c csrNeverReady, envWithChecksums_RefCrc32 r c _ hr,
    envWithChecksums_CalcCrc32 r c _ hc⟩

/-- Scenario 1: reference `0xDEADBEEF`, computed `0xDEADBEEF`: the run returns
`EFI_SUCCESS`. -/
theorem scenario_checksums_match :
    (FlashCRCEntry (envWithChecksums 0xDEADBEEF 0xDEADBEEF csrEmptyReady)).outcome
      = Outcome.returned EFI_SUCCESS :=
  (outcome_and_last_events _).1.2
    ((envWithChecksums_RefCrc32 _ _ _ (by omega)).trans
      (envWithChecksums_CalcCrc32 _ _ _ (by omega)).symm)

/-- Scenarios 2 and 3: reference `0xAAAAAAAA`, computed `0xBBBBBBBB`, with a
controller link that never becomes ready: the run halts. -/
theorem scenario_checksums_differ :
    (FlashCRCEntry (envWithChecksums 0xAAAAAAAA 0xBBBBBBBB csrNeverReady)).outcome
      = Outcome.halted :=
  (outcome_and_last_events _).2.1.2 (by
    rw [envWithChecksums_RefCrc32 _ _ _ (by omega), envWithChecksums_CalcCrc32 _ _ _ (by omega)]
    omega)

/-! ## The protection registers -/

theorem protectLow_eq : protectLow = 0x857F0000 := by decide

theorem protectHigh_eq : protectHigh = 0x87FF05C0 := by decide

/-- C5: with the non-volatile region at `0x580000`, size `0x40000`, the two
protected-range values are `0x857F0000` and `0x87FF05C0`; both have the
write-protect-enable bit; the first has base page 0 and limit page `0x57F` and
covers exactly `[0, 0x580000)`, the second has base page `0x5C0` and limit page
`0x7FF` and covers exactly `[0x5C0000, 0x800000)`; together they cover the image
address space minus the non-volatile region. -/
theorem protection_values :
    NVRAM_REGION_BASE = 0x580000 ∧ NVRAM_REGION_SIZE = 0x40000 ∧
    protectLow = 0x857F0000 ∧ protectHigh = 0x87FF05C0 ∧
    protectLow &&& WRITE_PROTECT_EN = 0x80000000 ∧
    protectHigh &&& WRITE_PROTECT_EN = 0x80000000 ∧
    prWriteProtect protectLow = 1 ∧ prWriteProtect protectHigh = 1 ∧
    prBase protectLow = 0 ∧ prLimit protectLow = 0x57F ∧
    prBase protectHigh = 0x5C0 ∧ prBase protectHigh = 0x5C0000 >>> 12 ∧
    prLimit protectHigh = 0x7FF ∧
    prBase protectHigh * 4096 = NVRAM_REGION_BASE + NVRAM_REGION_SIZE ∧
    (prLimit protectLow + 1) * 4096 = NVRAM_REGION_BASE ∧
    (∀ a, prCovers protectLow a ↔ a < 0x580000) ∧
    (∀ a, prCovers protectHigh a ↔ (0x5C0000 ≤ a ∧ a < 0x800000)) ∧
    (∀ a, (prCovers protectLow a ∨ prCovers protectHigh a) ↔
      (a < BIOS_SIZE ∧ ¬ (NVRAM_REGION_BASE ≤ a ∧ a < NVRAM_REGION_BASE + NVRAM_REGION_SIZE))) := by
  refine ⟨rfl, rfl, protectLow_eq, protectHigh_eq, by decide, by decide, by decide, by decide,
    by decide, by decide, by decide, by decide, by decide, by decide, by decide, ?_, ?_, ?_⟩
  · intro a
    rw [protectLow_eq]
    simp only [prCovers, prBase, prLimit]
    omega
  · intro a
    rw [protectHigh_eq]
    simp only [prCovers, prBase, prLimit]
  · intro a
    rw [protectLow_eq, protectHigh_eq]
    simp only [prCovers, prBase, prLimit, BIOS_SIZE, NVRAM_REGION_BASE, NVRAM_REGION_SIZE]
    omega

theorem lor_read_protect (h : Nat) (hh : h < 65536) : h ||| 32768 = h % 32768 + 32768 := by
  have e15 : (2 : Nat) ^ 15 = 32768 := by norm_num
  have hdecomp : h = 2 ^ 15 * (h / 32768) + h % 32768 := by rw [e15]; omega
  have hr : h % 32768 < 2 ^ 15 := by rw [e15]; omega
  have hor := Nat.mul_add_lt_is_or hr (h / 32768)
  have hq : h / 32768 = 0 ∨ h / 32768 = 1 := by omega
  have h1 := Nat.mul_add_lt_is_or hr 1
  rw [Nat.mul_one] at h1
  rcases hq with hq | hq
  · rw [hq, Nat.mul_zero, Nat.zero_add] at hdecomp
    have : h ||| 32768 = 2 ^ 15 ||| h % 32768 := by
      rw [← hdecomp, e15, Nat.or_comm]
    rw [this, ← h1, e15]; omega
  · rw [hq, Nat.mul_one] at hdecomp hor
    have : h ||| 32768 = 2 ^ 15 ||| h % 32768 := by
      conv_lhs => rw [hdecomp, hor, Nat.or_assoc, Nat.or_comm (h % 32768), ← Nat.or_assoc, e15,
        Nat.or_self]
      rw [e15]
    rw [this, ← h1, e15]; omega

theorem spiReg_ne (env : Env) :
    spiReg env 0x78 ≠ spiReg env 0x74 ∧ spiReg env 0x74 ≠ spiReg env 0x78 := by
  unfold spiReg SpiControllerAddr UINT32_MOD SPI_CONTROLLER_OFFSET
  omega

theorem gate_events_other (r c : Nat) :
    ∀ e ∈ (gate r c).1, isSpiCtl e = false ∧ isImageRead e = false := by
  intro e he
  rw [gate_eq] at he
  split at he
  · rw [List.mem_singleton.1 he]; exact ⟨rfl, rfl⟩
  · simp only [List.mem_cons, List.mem_singleton, List.not_mem_nil, or_false] at he
    rcases he with he | he <;> (rw [he]; exact ⟨rfl, rfl⟩)

/-- The part of the trace of a run that precedes the protection register
programming. -/
theorem FlashCRCEntry_split (env : Env) :
    ∃ pre, (FlashCRCEntry env).trace =
        pre ++ (protectEvents env ++
          (gate (FlashCRCEntry env).RefCrc32 (FlashCRCEntry env).CalcCrc32).1) ∧
      (∀ e ∈ pre, isSpiCtl e = false) ∧ imageReads pre = allChunks env := by
  obtain ⟨l, hk, ht⟩ := FlashCRCEntry_trace env
  rw [FlashCRCEntry_RefCrc32, FlashCRCEntry_CalcCrc32]
  refine ⟨(populated env).trace ++
    ([Event.calculateCrc32 BIOS_SIZE (computedCrc env), Event.freePool, Event.freePool,
      Event.pciRead32 (env.HeciBar % UINT32_MOD)] ++
    (l ++ [Event.pciRead32 (env.Rcba % UINT32_MOD)])), ?_, ?_, ?_⟩
  · rw [ht]; simp only [List.append_assoc]
  · intro e he
    simp only [List.mem_append, List.mem_cons, List.mem_singleton, List.not_mem_nil,
      or_false] at he
    rcases he with he | (he | he | he | he) | he | he
    · exact populated_not_ctl env e he
    · rw [he]; rfl
    · rw [he]; rfl
    · rw [he]; rfl
    · rw [he]; rfl
    · exact (isHeci_not_other e (hk e he)).2
    · rw [he]; rfl
  · simp only [imageReads_append, populated_imageReads]
    rw [imageReads_eq_nil l (fun e he => (isHeci_not_other e (hk e he)).1)]
    simp [imageReads]

/-- C7: in every run each of the two protected-range registers is written exactly
once, the status register is written exactly once with the value read from it
with bit 15 (`READ_PROTECT_EN`) set and its other bits unchanged; these accesses
come after every read of the image and immediately before the messages and the
outcome of the checksum comparison. -/
theorem protection_programmed_once_before_gate (env : Env) :
    writes32To (spiReg env 0x74) (FlashCRCEntry env).trace = [protectLow] ∧
    writes32To (spiReg env 0x78) (FlashCRCEntry env).trace = [protectHigh] ∧
    writes16To (spiReg env 0x4) (FlashCRCEntry env).trace
      = [(env.Hsfs % 65536 ||| READ_PROTECT_EN) % 65536] ∧
    (env.Hsfs % 65536 ||| READ_PROTECT_EN) % 65536 = env.Hsfs % 65536 % 32768 + 32768 ∧
    (∃ pre, (FlashCRCEntry env).trace =
        pre ++ (protectEvents env ++
          (gate (FlashCRCEntry env).RefCrc32 (FlashCRCEntry env).CalcCrc32).1) ∧
      (∀ e ∈ pre, isSpiCtl e = false) ∧
      imageReads pre = imageReads (FlashCRCEntry env).trace ∧
      (∀ e ∈ (gate (FlashCRCEntry env).RefCrc32 (FlashCRCEntry env).CalcCrc32).1,
        isSpiCtl e = false ∧ isImageRead e = false)) ∧
    protectEvents env =
      [ Event.mmioWrite32 (spiReg env 0x74) protectLow,
        Event.mmioWrite32 (spiReg env 0x78) protectHigh,
        Event.mmioRead16 (spiReg env 0x4) (env.Hsfs % 65536),
        Event.mmioWrite16 (spiReg env 0x4) ((env.Hsfs % 65536 ||| READ_PROTECT_EN) % 65536) ] ∧
    (FlashCRCEntry env).outcome =
      (gate (FlashCRCEntry env).RefCrc32 (FlashCRCEntry env).CalcCrc32).2 := by
  obtain ⟨pre, hsplit, hpre, himg⟩ := FlashCRCEntry_split env
  have hg := gate_events_other (FlashCRCEntry env).RefCrc32 (FlashCRCEntry env).CalcCrc32
  have hne := spiReg_ne env
  have hout : (FlashCRCEntry env).outcome =
      (gate (FlashCRCEntry env).RefCrc32 (FlashCRCEntry env).CalcCrc32).2 := by
    rw [FlashCRCEntry_outcome, FlashCRCEntry_RefCrc32, FlashCRCEntry_CalcCrc32]
  refine ⟨?_, ?_, ?_, ?_, ⟨pre, hsplit, hpre, ?_, hg⟩, rfl, hout⟩
  · rw [hsplit, writes32To_append, writes32To_append, writes32To_eq_nil _ pre hpre,
      writes32To_eq_nil _ _ (fun e he => (hg e he).1)]
    simp [protectEvents, writes32To, hne.1]
  · rw [hsplit, writes32To_append, writes32To_append, writes32To_eq_nil _ pre hpre,
      writes32To_eq_nil _ _ (fun e he => (hg e he).1)]
    simp [protectEvents, writes32To, hne.2]
  · rw [hsplit, writes16To_append, writes16To_append, writes16To_eq_nil _ pre hpre,
      writes16To_eq_nil _ _ (fun e he => (hg e he).1)]
    simp [protectEvents, writes16To]
  · have hlt : env.Hsfs % 65536 < 65536 := Nat.mod_lt _ (by norm_num)
    have := lor_read_protect (env.Hsfs % 65536) hlt
    unfold READ_PROTECT_EN
    rw [show (0x8000 : Nat) = 32768 from rfl, this]
    omega
  · rw [himg, FlashCRCEntry_imageReads]

end FlashCRC
